import Mathlib

/-!
Shallow embedding of the RepoAnalyzer repository (Python) in Lean 4,
covering the dependency-graph builder, entrypoint finder, stack detector,
language detector, folder classifier and execution-flow builder, together
with theorems settling the specification claims about them.

Python strings are modeled as Lean `String`, Python lists as `List`,
Python dicts as association lists in insertion order (a Python dict
preserves insertion order of keys and a dict comprehension keeps, for a
repeated key, the position of its first occurrence and the value of its
last occurrence), and Python sets of strings as first-occurrence
deduplicated lists (every observation the code makes of a set is either a
membership test or a `sorted(...)`, both independent of iteration order).
-/

/-- Python whitespace for `str.strip` and the regex class backslash-s
(ASCII range, which covers the inputs of this repository). -/
def isPySpace (c : Char) : Bool :=
  c = ' ' || c = '\t' || c = '\n' || c = '\r' || c = Char.ofNat 11 || c = Char.ofNat 12

/-- Single quote character (written via its code point). -/
def sqChar : Char := Char.ofNat 39

/-- Double quote character (written via its code point). -/
def dqChar : Char := Char.ofNat 34

/-- Python `str.strip()` on a character list. -/
def pyStripL (l : List Char) : List Char :=
  ((l.dropWhile isPySpace).reverse.dropWhile isPySpace).reverse

/-- Python `str.lower()` (ASCII case folding, as used by the repository). -/
def pyLower (s : String) : String :=
  (s.toList.map Char.toLower).asString

/-- Python substring test `needle in hay` on strings. -/
def pyInStr (needle hay : String) : Bool :=
  hay.toList.tails.any (fun t => needle.toList.isPrefixOf t)

/-- Python `str.startswith`. -/
def pyStartsWith (s pre : String) : Bool :=
  pre.toList.isPrefixOf s.toList

/-- Python `str.endswith`. -/
def pyEndsWith (s suf : String) : Bool :=
  suf.toList.reverse.isPrefixOf s.toList.reverse

/-- Split a character list on a separator character, Python `str.split(sep)`
semantics (the empty list yields one empty field). -/
def splitOnCharL (c : Char) : List Char → List (List Char)
  | [] => [[]]
  | x :: xs =>
    let r := splitOnCharL c xs
    if x = c then [] :: r
    else
      match r with
      | [] => [[x]]
      | h :: t => (x :: h) :: t

/-- The characters after the last dot, Python `s.rsplit(".", 1)[-1]`. -/
def afterLastDotL (l : List Char) : List Char :=
  (splitOnCharL '.' l).getLastD []

/-- The characters before the last dot, Python `s.rsplit(".", 1)[0]`
(meaningful only when a dot is present, as at its call sites). -/
def beforeLastDotL (l : List Char) : List Char :=
  (((l.reverse.dropWhile (fun c => c ≠ '.')).drop 1)).reverse

/-- First-occurrence deduplication, the order in which a Python dict
comprehension or our set model enumerates distinct keys: each element
keeps its first position and later duplicates are dropped. -/
def firstOccs {α : Type} [DecidableEq α] : List α → List α
  | [] => []
  | x :: xs => x :: (firstOccs xs).filter (fun y => y ≠ x)

/-- Python string comparison: lexicographic on code points, as a Bool. -/
def charListLe : List Char → List Char → Bool
  | [], _ => true
  | _ :: _, [] => false
  | a :: as, b :: bs => if a = b then charListLe as bs else decide (a.toNat < b.toNat)

/-- Python `s <= t` on strings. -/
def pyStrLe (s t : String) : Prop := charListLe s.toList t.toList = true

instance (s t : String) : Decidable (pyStrLe s t) := by
  unfold pyStrLe; infer_instance

/-- Python `sorted(...)` on a list of strings. -/
def pySorted (l : List String) : List String :=
  l.insertionSort pyStrLe

/-- Python dict deduplication keyed by `key`: one element per key, keys in
first-occurrence order, each carrying the last value seen for that key. -/
def dedupByKey {α : Type} (key : α → String) (l : List α) : List α :=
  (firstOccs (l.map key)).filterMap (fun k => (l.filter (fun r => key r = k)).getLast?)

/-- A repository file record: the `path` and `content` entries of the
Python file dict (the analysis functions read no other entries). -/
structure FileRec where
  path : String
  content : String
deriving DecidableEq

/-! ## src/graph/dependency_graph.py -/

/-- `DependencyGraph` from src/graph/dependency_graph.py: a node set and
two defaultdict(set) edge maps, modeled as insertion-ordered lists. -/
structure DependencyGraph where
  nodes : List String
  edges : List (String × List String)
  reverse_edges : List (String × List String)
deriving DecidableEq

/-- The empty graph built by `DependencyGraph.__init__`. -/
def DependencyGraph.init : DependencyGraph := ⟨[], [], []⟩

/-- Insertion into the node set. -/
def setAddStr (s : List String) (x : String) : List String :=
  if x ∈ s then s else s ++ [x]

/-- `m[k].add(v)` on a `defaultdict(set)`: inserts the key at the end on
first use, adds `v` to the set stored at the key. -/
def dictSetAdd (m : List (String × List String)) (k v : String) :
    List (String × List String) :=
  match m with
  | [] => [(k, [v])]
  | (k2, vs) :: rest =>
    if k2 = k then (k2, if v ∈ vs then vs else vs ++ [v]) :: rest
    else (k2, vs) :: dictSetAdd rest k v

/-- `m.get(k, set())`: read without inserting. -/
def dictGetD (m : List (String × List String)) (k : String) : List String :=
  match m with
  | [] => []
  | (k2, vs) :: rest => if k2 = k then vs else dictGetD rest k

/-- The keys of a modeled dict. -/
def dictKeys (m : List (String × List String)) : List String :=
  m.map (fun p => p.1)

/-- `DependencyGraph.add_node`. -/
def DependencyGraph.add_node (g : DependencyGraph) (node : String) : DependencyGraph :=
  { g with nodes := setAddStr g.nodes node }

/-- `DependencyGraph.add_edge`: registers both endpoints as nodes and
records the edge in the forward and reverse maps. -/
def DependencyGraph.add_edge (g : DependencyGraph) (from_node to_node : String) :
    DependencyGraph :=
  { nodes := setAddStr (setAddStr g.nodes from_node) to_node
    edges := dictSetAdd g.edges from_node to_node
    reverse_edges := dictSetAdd g.reverse_edges to_node from_node }

/-- `DependencyGraph.get_downstream`, with its (unchanged) state: the body
only calls `self.reverse_edges.get(node, set())`, which reads without
inserting a key, and returns the sorted members. -/
def DependencyGraph.get_downstreamSt (g : DependencyGraph) (node : String) :
    List String × DependencyGraph :=
  (pySorted (dictGetD g.reverse_edges node), g)

/-- `DependencyGraph.get_upstream`, with its (unchanged) state. -/
def DependencyGraph.get_upstreamSt (g : DependencyGraph) (node : String) :
    List String × DependencyGraph :=
  (pySorted (dictGetD g.edges node), g)

/-- `DependencyGraph.get_all_nodes`, with its (unchanged) state. -/
def DependencyGraph.get_all_nodesSt (g : DependencyGraph) :
    List String × DependencyGraph :=
  (pySorted g.nodes, g)

/-- `DependencyGraph.to_dict`, with its (unchanged) state: sorted node
list plus the forward edge map with each value set sorted. -/
def DependencyGraph.to_dictSt (g : DependencyGraph) :
    (List String × List (String × List String)) × DependencyGraph :=
  ((pySorted g.nodes, g.edges.map (fun p => (p.1, pySorted p.2))), g)

/-- The value returned by `get_downstream`. -/
def DependencyGraph.get_downstream (g : DependencyGraph) (node : String) : List String :=
  (g.get_downstreamSt node).1

/-- The value returned by `get_upstream`. -/
def DependencyGraph.get_upstream (g : DependencyGraph) (node : String) : List String :=
  (g.get_upstreamSt node).1

/-- The value returned by `get_all_nodes`. -/
def DependencyGraph.get_all_nodes (g : DependencyGraph) : List String :=
  (g.get_all_nodesSt).1

/-- A regex word character (backslash-w), ASCII range as above. -/
def isWordChar (c : Char) : Bool :=
  c.isAlphanum || c = '_'

/-- A character of the class `[\w.]`. -/
def isWordDot (c : Char) : Bool :=
  isWordChar c || c = '.'

/-- `re.match` of `^import\s+([\w.]+)` on a stripped line: the module
group. The anchored pattern is deterministic: after the literal, at least
one whitespace character, then a maximal nonempty run of word-or-dot
characters (the following context is never inspected, so greedy matching
is exact). -/
def matchImportLine (l : List Char) : Option (List Char) :=
  if "import".toList.isPrefixOf l then
    let rest := l.drop 6
    let ws := rest.takeWhile isPySpace
    if ws.length = 0 then none
    else
      let word := (rest.drop ws.length).takeWhile isWordDot
      if word.length = 0 then none else some word
  else none

/-- `re.match` of `^from\s+([\w.]+)\s+import` on a stripped line. The
greedy group is exact here too: shortening the maximal `[\w.]+` run would
require a word-or-dot character to match `\s`, which is impossible. -/
def matchFromLine (l : List Char) : Option (List Char) :=
  if "from".toList.isPrefixOf l then
    let rest := l.drop 4
    let ws := rest.takeWhile isPySpace
    if ws.length = 0 then none
    else
      let afterWs := rest.drop ws.length
      let word := afterWs.takeWhile isWordDot
      if word.length = 0 then none
      else
        let afterWord := afterWs.drop word.length
        let ws2 := afterWord.takeWhile isPySpace
        if ws2.length = 0 then none
        else if "import".toList.isPrefixOf (afterWord.drop ws2.length) then some word
        else none
  else none

/-- `module.split(".")[0]`. -/
def topModule (w : List Char) : String :=
  ((splitOnCharL '.' w).headD []).asString

/-- `_extract_python_imports`: per stripped line, the first of the two
patterns that matches contributes its top-level module; the final
`list(set(imports))` is modeled as first-occurrence deduplication (no
caller depends on the iteration order of the set). -/
def extract_python_imports (content : String) : List String :=
  let collected := (splitOnCharL '\n' content.toList).filterMap (fun rawLine =>
    let line := pyStripL rawLine
    match matchImportLine line with
    | some m => some (topModule m)
    | none => (matchFromLine line).map topModule)
  firstOccs collected

/-- The trailing part of the first JS pattern (literal `from`, at least
one whitespace, a quote, a nonempty maximal run of non-quote characters,
a closing quote, the group being that run). Returns the group and the
suffix after the match. -/
def matchFromQuoted (t : List Char) : Option (String × List Char) :=
  if "from".toList.isPrefixOf t then
    let u := t.drop 4
    let ws := u.takeWhile isPySpace
    if ws.length = 0 then none
    else
      match u.drop ws.length with
      | [] => none
      | q :: v =>
        if q = sqChar || q = dqChar then
          let grp := v.takeWhile (fun c => c ≠ sqChar && c ≠ dqChar)
          if grp.length = 0 then none
          else
            match v.drop grp.length with
            | [] => none
            | _ :: after => some (grp.asString, after)
        else none
  else none

/-- The `.*?` segment of the first JS pattern: advance over non-newline
characters, shortest first (lazy), until `matchFromQuoted` succeeds. -/
def tryDotsLazy : List Char → Option (String × List Char)
  | [] => matchFromQuoted []
  | t@(c :: rest) =>
    match matchFromQuoted t with
    | some res => some res
    | none => if c = '\n' then none else tryDotsLazy rest

/-- The `\s+` segment of the first JS pattern: widths are tried longest
first (greedy), the lazy tail decides each. -/
def tryWsWidths (r : List Char) : Nat → Option (String × List Char)
  | 0 => none
  | w + 1 =>
    match tryDotsLazy (r.drop (w + 1)) with
    | some res => some res
    | none => tryWsWidths r w

/-- Match of the first JS pattern (literal `import`, one or more
whitespace characters, a lazy dot-star, then the quoted from-part)
anchored at the start of `s`, following the regex backtracking order. -/
def matchJsImportFrom (s : List Char) : Option (String × List Char) :=
  if "import".toList.isPrefixOf s then
    let r := s.drop 6
    let wmax := (r.takeWhile isPySpace).length
    if wmax = 0 then none else tryWsWidths r wmax
  else none

/-- Match of a call pattern (a literal name, optional whitespace, an
opening parenthesis, a quoted nonempty group, a closing parenthesis)
anchored at the start of `s`: the shared shape of the `require(...)` and
`import(...)` findall patterns. -/
def matchCallQuoted (nm : List Char) (s : List Char) : Option (String × List Char) :=
  if nm.isPrefixOf s then
    let r := (s.drop nm.length).dropWhile isPySpace
    match r with
    | [] => none
    | p :: r2 =>
      if p = '(' then
        match r2 with
        | [] => none
        | q :: v =>
          if q = sqChar || q = dqChar then
            let grp := v.takeWhile (fun c => c ≠ sqChar && c ≠ dqChar)
            if grp.length = 0 then none
            else
              match v.drop grp.length with
              | [] => none
              | _ :: after =>
                match after with
                | [] => none
                | cl :: after2 => if cl = ')' then some (grp.asString, after2) else none
          else none
      else none
  else none

/-- `re.findall` scan: try the matcher at each position left to right,
resuming after the end of every (non-overlapping) match. Fuel bounds the
number of steps; each step consumes at least one character, so
`s.length + 1` suffices. -/
def reScan (m : List Char → Option (String × List Char)) :
    Nat → List Char → List String
  | 0, _ => []
  | _, [] => []
  | fuel + 1, s =>
    match m s with
    | some (g, after) =>
      if after.length < s.length then g :: reScan m fuel after
      else g :: reScan m fuel (s.drop 1)
    | none =>
      match s with
      | [] => []
      | _ :: rest => reScan m fuel rest

/-- All groups of `re.findall(p, content)` for a matcher `m`. -/
def findallGroups (m : List Char → Option (String × List Char)) (content : String) :
    List String :=
  reScan m (content.toList.length + 1) content.toList

/-- The package-name normalization applied to each JS match. -/
def jsPackage (mtch : String) : String :=
  let segs := splitOnCharL '/' mtch.toList
  let package := (segs.headD []).asString
  if pyStartsWith package "@" && mtch.toList.contains '/' then
    package ++ "/" ++ ((segs.drop 1).headD []).asString
  else package

/-- `_extract_js_imports`: groups of the three findall patterns in
pattern order, relative imports skipped, package names normalized, then
`list(set(imports))` modeled as first-occurrence deduplication. -/
def extract_js_imports (content : String) : List String :=
  let g1 := findallGroups matchJsImportFrom content
  let g2 := findallGroups (matchCallQuoted "require".toList) content
  let g3 := findallGroups (matchCallQuoted "import".toList) content
  let collected := (g1 ++ g2 ++ g3).filterMap (fun m =>
    if pyStartsWith m "." || pyStartsWith m "/" then none
    else some (jsPackage m))
  firstOccs collected

/-- `_normalize_path`: drop the extension after the last dot (when any)
and turn slashes into dots. -/
def normalize_path (file_path : String) : String :=
  let base := if file_path.toList.contains '.' then beforeLastDotL file_path.toList
    else file_path.toList
  (base.map (fun c => if c = '/' then '.' else c)).asString

/-- `_resolve_import_to_file`: the normalized-path dict, then the direct
value match, the key match, and the partial (substring / suffix) match in
dict order. Returns `none` for the Python value `None`. -/
def resolve_import_to_file (import_name : String) (all_files : List String) :
    Option String :=
  let normalized_files := dedupByKey (fun p => p.1)
    (all_files.map (fun f => (normalize_path f, f)))
  if import_name ∈ normalized_files.map (fun p => p.2) then some import_name
  else
    match normalized_files.find? (fun p => p.1 = import_name) with
    | some p => some p.2
    | none =>
      (normalized_files.find? (fun p =>
        pyInStr import_name p.1 || pyEndsWith p.1 import_name)).map (fun p => p.2)

/-- The per-file step of `build_dependency_graph`: files with a falsy path
or content are skipped; otherwise the file becomes a node, its imports are
extracted by language (by path suffix), and each import resolving to a
different, truthy file path becomes an edge. -/
def buildGraphStep (all_file_paths : List String) (g : DependencyGraph)
    (f : FileRec) : DependencyGraph :=
  if f.path = "" || f.content = "" then g
  else
    let g1 := g.add_node f.path
    let imports :=
      if pyEndsWith f.path ".py" then extract_python_imports f.content
      else if pyEndsWith f.path ".js" || pyEndsWith f.path ".jsx" ||
          pyEndsWith f.path ".ts" || pyEndsWith f.path ".tsx" then
        extract_js_imports f.content
      else []
    imports.foldl (fun g2 import_name =>
      match resolve_import_to_file import_name all_file_paths with
      | some resolved => if resolved ≠ "" && resolved ≠ f.path then
          g2.add_edge f.path resolved
        else g2
      | none => g2) g1

/-- `build_dependency_graph`. -/
def build_dependency_graph (files : List FileRec) : DependencyGraph :=
  let all_file_paths := files.map (fun f => f.path)
  files.foldl (buildGraphStep all_file_paths) DependencyGraph.init

/-! ## src/analysis/entrypoint_finder.py -/

/-- Tokens of the small regex language used by the framework entrypoint
patterns: a case-insensitive literal, a one-character class, optional
whitespace, mandatory whitespace, and a dot-star (any characters except
newline). -/
inductive RTok where
  | lit : List Char → RTok
  | cls : List Char → RTok
  | ws0 : RTok
  | ws1 : RTok
  | dotStar : RTok

/-- Case-insensitive literal test at the head of `s`. -/
def ciPrefixAt : List Char → List Char → Bool
  | [], _ => true
  | _ :: _, [] => false
  | a :: as, b :: bs => a.toLower = b.toLower && ciPrefixAt as bs

/-- Existence of a match of the token list at the head of `s`. For the
star and plus tokens every admissible width is tried, which decides
existence exactly (the characters they can consume are disjoint from
where the next token must land only in the success branch the engine
would also find). -/
def matchToks : List RTok → List Char → Bool
  | [], _ => true
  | RTok.lit cs :: rest, s => ciPrefixAt cs s && matchToks rest (s.drop cs.length)
  | RTok.cls cs :: rest, s =>
    (match s with
     | [] => false
     | c :: s2 => cs.contains c && matchToks rest s2)
  | RTok.ws0 :: rest, s =>
    (List.range ((s.takeWhile isPySpace).length + 1)).any (fun k => matchToks rest (s.drop k))
  | RTok.ws1 :: rest, s =>
    (List.range ((s.takeWhile isPySpace).length)).any (fun k => matchToks rest (s.drop (k + 1)))
  | RTok.dotStar :: rest, s =>
    (List.range ((s.takeWhile (fun c => c ≠ '\n')).length + 1)).any
      (fun k => matchToks rest (s.drop k))

/-- Literal token from a string. -/
def rlit (s : String) : RTok := RTok.lit s.toList

/-- The quote class (single or double quote). -/
def rquote : RTok := RTok.cls [sqChar, dqChar]

/-- `re.search` with `re.IGNORECASE` as a Bool: a match exists at some
position of the content. -/
def reSearchCI (toks : List RTok) (content : String) : Bool :=
  content.toList.tails.any (fun t => matchToks toks t)

/-- `ENTRYPOINT_FILES` from src/analysis/entrypoint_finder.py. -/
def ENTRYPOINT_FILES : List (String × List String) :=
  [("Python", ["main.py", "app.py", "wsgi.py", "asgi.py", "run.py", "__main__.py"]),
   ("JavaScript", ["index.js", "server.js", "app.js", "main.js"]),
   ("TypeScript", ["index.ts", "server.ts", "app.ts", "main.ts"]),
   ("Go", ["main.go"]),
   ("Java", ["Main.java", "Application.java"]),
   ("Rust", ["main.rs"])]

/-- `FRAMEWORK_ENTRYPOINT_PATTERNS`, each regex translated token by
token. -/
def FRAMEWORK_ENTRYPOINT_PATTERNS : List (String × List (List RTok)) :=
  [("Flask",
    [[rlit "app", RTok.ws0, rlit "=", RTok.ws0, rlit "Flask("],
     [rlit "@app.route("],
     [rlit "if", RTok.ws1, rlit "__name__", RTok.ws0, rlit "==", RTok.ws0, rquote,
      rlit "__main__", rquote, RTok.dotStar, rlit "app.run("]]),
   ("FastAPI",
    [[rlit "app", RTok.ws0, rlit "=", RTok.ws0, rlit "FastAPI("],
     [rlit "@app.get("],
     [rlit "@app.post("],
     [rlit "uvicorn.run("]]),
   ("Django",
    [[rlit "DJANGO_SETTINGS_MODULE"],
     [rlit "from", RTok.ws1, rlit "django.core.wsgi", RTok.ws1, rlit "import", RTok.ws1,
      rlit "get_wsgi_application"],
     [rlit "from", RTok.ws1, rlit "django.core.asgi", RTok.ws1, rlit "import", RTok.ws1,
      rlit "get_asgi_application"]]),
   ("Express",
    [[rlit "express()"],
     [rlit "app.listen("],
     [rlit "const", RTok.ws1, rlit "app", RTok.ws0, rlit "=", RTok.ws0, rlit "express("],
     [rlit "var", RTok.ws1, rlit "app", RTok.ws0, rlit "=", RTok.ws0, rlit "express("]]),
   ("NestJS",
    [[rlit "NestFactory.create"],
     [rlit "@Module("],
     [rlit "bootstrap()"]])]

/-- `_check_framework_patterns`. -/
def check_framework_patterns (content : String) (framework : String) : Bool :=
  match FRAMEWORK_ENTRYPOINT_PATTERNS.find? (fun p => p.1 = framework) with
  | none => false
  | some p => p.2.any (fun pat => reSearchCI pat content)

/-- `_extract_docker_entrypoints`: stripped lines starting with `CMD` or
`ENTRYPOINT`, in line order. -/
def extract_docker_entrypoints (content : String) : List String :=
  (splitOnCharL '\n' content.toList).flatMap (fun raw =>
    let line := (pyStripL raw).asString
    (if pyStartsWith line "CMD" then [line] else []) ++
      (if pyStartsWith line "ENTRYPOINT" then [line] else []))

/-- `path.split("/")[-1] if "/" in path else path`. -/
def pyFilename (path : String) : String :=
  if path.toList.contains '/' then ((splitOnCharL '/' path.toList).getLastD []).asString
  else path

/-- One record of the `application_files` list. -/
structure AppFileRec where
  path : String
  ftype : String
  filename : String
deriving DecidableEq

/-- One record of the `framework_entrypoints` list. -/
structure FrameworkRec where
  path : String
  framework : String
deriving DecidableEq

/-- One record of the `docker_entrypoints` list. -/
structure DockerRec where
  path : String
  command : String
deriving DecidableEq

/-- The dictionary returned by `find_entrypoints`. -/
structure EntrypointsResult where
  application_files : List AppFileRec
  framework_entrypoints : List FrameworkRec
  docker_entrypoints : List DockerRec
deriving DecidableEq

/-- The `application_files` records appended by the main loop of
`find_entrypoints`, before deduplication. -/
def applicationFileCandidates (files : List FileRec) : List AppFileRec :=
  files.flatMap (fun f =>
    let filename := pyFilename f.path
    ENTRYPOINT_FILES.filterMap (fun p =>
      if filename ∈ p.2 then some ⟨f.path, p.1, filename⟩ else none))

/-- The `framework_entrypoints` records appended by the main loop of
`find_entrypoints`, before deduplication. -/
def frameworkEntrypointCandidates (files : List FileRec) : List FrameworkRec :=
  files.flatMap (fun f =>
    FRAMEWORK_ENTRYPOINT_PATTERNS.filterMap (fun p =>
      if check_framework_patterns f.content p.1 then some ⟨f.path, p.1⟩ else none))

/-- The `docker_entrypoints` records appended by the main loop of
`find_entrypoints` (never deduplicated). -/
def dockerEntrypointCandidates (files : List FileRec) : List DockerRec :=
  files.flatMap (fun f =>
    let filename := pyFilename f.path
    if filename = "Dockerfile" || pyInStr "Dockerfile" f.path then
      (extract_docker_entrypoints f.content).map (fun entry => ⟨f.path, entry⟩)
    else [])

/-- `find_entrypoints`: the three candidate lists, with the application
and framework lists deduplicated by the dict comprehension
`list(#-dict from path to record-#.values())`. -/
def find_entrypoints (files : List FileRec) : EntrypointsResult :=
  { application_files := dedupByKey (fun r => r.path) (applicationFileCandidates files)
    framework_entrypoints := dedupByKey (fun r => r.path) (frameworkEntrypointCandidates files)
    docker_entrypoints := dockerEntrypointCandidates files }

/-! ## src/analysis/stack_detector.py -/

/-- One value of `FRAMEWORK_PATTERNS`: the optional `imports`, `files`
and `dependencies` keys. -/
structure StackPattern where
  impNames : Option (List String) := none
  fileNames : Option (List String) := none
  depNames : Option (List String) := none

/-- `FRAMEWORK_PATTERNS` from src/analysis/stack_detector.py. -/
def FRAMEWORK_PATTERNS : List (String × StackPattern) :=
  [("Flask", { impNames := some ["flask", "from flask"],
               fileNames := some ["app.py", "wsgi.py"],
               depNames := some ["flask"] }),
   ("Django", { impNames := some ["django", "from django"],
                fileNames := some ["manage.py", "settings.py", "wsgi.py"],
                depNames := some ["django"] }),
   ("FastAPI", { impNames := some ["fastapi", "from fastapi"],
                 depNames := some ["fastapi"] }),
   ("Tornado", { impNames := some ["tornado", "from tornado"],
                 depNames := some ["tornado"] }),
   ("Express", { impNames := some ["express", "require(" ++ sqChar.toString ++ "express" ++ sqChar.toString ++ ")",
                   "require(" ++ dqChar.toString ++ "express" ++ dqChar.toString ++ ")"],
                 depNames := some ["express"] }),
   ("NestJS", { impNames := some ["@nestjs", "from " ++ sqChar.toString ++ "@nestjs"],
                depNames := some ["@nestjs/core", "@nestjs/common"],
                fileNames := some ["nest-cli.json"] }),
   ("Koa", { impNames := some ["koa", "require(" ++ sqChar.toString ++ "koa" ++ sqChar.toString ++ ")",
               "require(" ++ dqChar.toString ++ "koa" ++ dqChar.toString ++ ")"],
             depNames := some ["koa"] }),
   ("Hapi", { impNames := some ["@hapi/hapi", "require(" ++ sqChar.toString ++ "@hapi/hapi" ++ sqChar.toString ++ ")"],
              depNames := some ["@hapi/hapi"] }),
   ("React", { impNames := some ["react", "from " ++ sqChar.toString ++ "react" ++ sqChar.toString,
                 "from " ++ dqChar.toString ++ "react" ++ dqChar.toString],
               depNames := some ["react", "react-dom"] }),
   ("Next.js", { fileNames := some ["next.config.js", "next.config.ts"],
                 depNames := some ["next"] }),
   ("Vue", { impNames := some ["vue", "from " ++ sqChar.toString ++ "vue" ++ sqChar.toString,
               "from " ++ dqChar.toString ++ "vue" ++ dqChar.toString],
             depNames := some ["vue"],
             fileNames := some ["vue.config.js"] }),
   ("Angular", { impNames := some ["@angular", "from " ++ sqChar.toString ++ "@angular"],
                 depNames := some ["@angular/core"],
                 fileNames := some ["angular.json"] }),
   ("Svelte", { depNames := some ["svelte"],
                fileNames := some ["svelte.config.js"] }),
   ("PyTorch", { impNames := some ["torch", "import torch", "from torch"],
                 depNames := some ["torch", "pytorch"] }),
   ("TensorFlow", { impNames := some ["tensorflow", "import tensorflow", "from tensorflow"],
                    depNames := some ["tensorflow", "tensorflow-gpu"] }),
   ("Scikit-learn", { impNames := some ["sklearn", "from sklearn"],
                      depNames := some ["scikit-learn"] })]

/-- `_check_imports`: case-insensitive substring test of any pattern. -/
def check_imports (content : String) (patterns : List String) : Bool :=
  patterns.any (fun pat => pyInStr (pyLower pat) (pyLower content))

/-- `_check_dependencies`: the three dependency-file checks in order (the
function returns True as soon as one hits; the disjunction is its
denotation). -/
def check_dependencies (file_path content : String) (patterns : List String) : Bool :=
  (pyInStr "requirements.txt" file_path &&
    patterns.any (fun pat => pyInStr (pyLower pat) (pyLower content))) ||
  (pyInStr "pyproject.toml" file_path &&
    patterns.any (fun pat => pyInStr (pyLower pat) (pyLower content))) ||
  (pyInStr "package.json" file_path &&
    patterns.any (fun pat =>
      pyInStr (dqChar.toString ++ pat ++ dqChar.toString) content ||
      pyInStr (sqChar.toString ++ pat ++ sqChar.toString) content))

/-- The per-file test of the `detect_frameworks` loop body: imports, then
dependency files, then specific file names (the loop adds the framework
to a set and breaks on the first file that hits, so the set holds the
framework exactly when some file passes some check). -/
def frameworkFileHit (p : StackPattern) (f : FileRec) : Bool :=
  (match p.impNames with
   | some pats => check_imports f.content pats
   | none => false) ||
  (match p.depNames with
   | some pats => check_dependencies f.path f.content pats
   | none => false) ||
  (match p.fileNames with
   | some pats => pats.any (fun fp => pyInStr fp f.path)
   | none => false)

/-- `detect_frameworks`: the sorted list of frameworks some file of which
passes a check. -/
def detect_frameworks (files : List FileRec) : List String :=
  pySorted ((FRAMEWORK_PATTERNS.filter (fun p =>
    files.any (fun f => frameworkFileHit p.2 f))).map (fun p => p.1))

/-! ## src/analysis/language_detector.py -/

/-- `EXTENSION_TO_LANGUAGE` from src/analysis/language_detector.py. -/
def EXTENSION_TO_LANGUAGE : List (String × String) :=
  [(".py", "Python"), (".pyx", "Python"), (".pyi", "Python"),
   (".js", "JavaScript"), (".jsx", "JavaScript"), (".mjs", "JavaScript"),
   (".cjs", "JavaScript"), (".ts", "TypeScript"), (".tsx", "TypeScript"),
   (".java", "Java"), (".go", "Go"), (".rs", "Rust"),
   (".c", "C"), (".h", "C"), (".cpp", "C++"), (".cc", "C++"), (".cxx", "C++"),
   (".hpp", "C++"), (".hh", "C++"), (".hxx", "C++"), (".cs", "C#"),
   (".html", "HTML"), (".htm", "HTML"), (".css", "CSS"), (".scss", "SCSS"),
   (".sass", "SCSS"), (".less", "CSS"),
   (".sh", "Shell"), (".bash", "Shell"), (".zsh", "Shell"),
   (".yaml", "YAML"), (".yml", "YAML"), (".json", "JSON"), (".xml", "XML"),
   (".toml", "TOML"), (".rb", "Ruby"), (".php", "PHP"), (".swift", "Swift"),
   (".kt", "Kotlin"), (".kts", "Kotlin"), (".scala", "Scala"),
   (".r", "R"), (".R", "R"), (".sql", "SQL"),
   (".md", "Markdown"), (".markdown", "Markdown")]

/-- `detect_language`: the lowercased extension after the last dot, looked
up in the table. -/
def detect_language (file_path : String) : String :=
  if file_path.toList.contains '.' then
    let extension_lower := pyLower ("." ++ (afterLastDotL file_path.toList).asString)
    match EXTENSION_TO_LANGUAGE.find? (fun p => p.1 = extension_lower) with
    | some p => p.2
    | none => "Unknown"
  else "Unknown"

/-- `m[k] += n` on a `defaultdict(int)`: bump in place, inserting the key
at the end on first use. -/
def bumpBy (m : List (String × Nat)) (k : String) (n : Nat) : List (String × Nat) :=
  match m with
  | [] => [(k, n)]
  | (k2, c) :: rest => if k2 = k then (k2, c + n) :: rest else (k2, c) :: bumpBy rest k n

/-- Lookup in a modeled `defaultdict(int)`. -/
def lookupNat (m : List (String × Nat)) (k : String) : Nat :=
  match m with
  | [] => 0
  | (k2, c) :: rest => if k2 = k then c else lookupNat rest k

/-- `len([line for line in content.split("\n") if line.strip()])`. -/
def countNonEmptyLines (content : String) : Nat :=
  ((splitOnCharL '\n' content.toList).filter (fun line => ¬ (pyStripL line).isEmpty)).length

/-- One file of the counting pass of `get_repo_language_stats`: a
classified file bumps its language's file count, its language's
nonempty-line count, and the classified-file total. -/
def languageTallyStep (st : List (String × Nat) × List (String × Nat) × Nat)
    (f : FileRec) : List (String × Nat) × List (String × Nat) × Nat :=
  let language := detect_language f.path
  if language ≠ "Unknown" then
    (bumpBy st.1 language 1, bumpBy st.2.1 language (countNonEmptyLines f.content),
      st.2.2 + 1)
  else st

/-- The counting pass of `get_repo_language_stats`: per-language file
counts and nonempty-line counts (both keyed in first-encounter order) and
the classified-file total. -/
def languageTallies (files : List FileRec) : List (String × Nat) × List (String × Nat) × Nat :=
  files.foldl languageTallyStep ([], [], 0)

/-- Python `max(items, key=lambda x: x[1])` on an association list:
the first element attaining the maximal value (later elements replace the
accumulator only on a strictly greater value). -/
def pyMaxBySnd (l : List (String × Nat)) : Option (String × Nat) :=
  match l with
  | [] => none
  | x :: xs => some (xs.foldl (fun acc y => if y.2 > acc.2 then y else acc) x)

/-- The dictionary returned by `get_repo_language_stats`. Each language
entry carries its file count and nonempty-line count; the percentage
entry of the source is a derived float (`round(count / total * 100, 2)`)
that no claim concerns and is not modeled. -/
structure RepoLanguageStats where
  languages : List (String × Nat × Nat)
  primary_language : Option String
  total_files : Nat
deriving DecidableEq

/-- `get_repo_language_stats`: the early empty return, the per-language
stats sorted by file count descending (stable), and the primary language
chosen by `max` on the counts in insertion order. -/
def get_repo_language_stats (files : List FileRec) : RepoLanguageStats :=
  let t := languageTallies files
  let language_counts := t.1
  let language_lines := t.2.1
  let total_files := t.2.2
  if total_files = 0 then ⟨[], none, 0⟩
  else
    let languages := language_counts.map (fun p => (p.1, p.2, lookupNat language_lines p.1))
    { languages := languages.insertionSort (fun a b => b.2.1 ≤ a.2.1)
      primary_language :=
        (match language_counts with
         | [] => none
         | _ => (pyMaxBySnd language_counts).map (fun p => p.1))
      total_files := total_files }

/-! ## src/analysis/structure_analyzer.py -/

/-- The `names` entries of `FOLDER_PATTERNS`, in dict order. -/
def FOLDER_PATTERNS_names : List (String × List String) :=
  [("frontend", ["frontend", "client", "web", "ui", "app", "public", "static", "assets"]),
   ("backend", ["backend", "server", "api", "services", "core", "src/api", "app/api"]),
   ("config", ["config", "configuration", "settings", "env"]),
   ("infrastructure", ["infra", "infrastructure", "deploy", "deployment", "k8s",
     "kubernetes", "docker", ".github", ".gitlab"]),
   ("scripts", ["scripts", "bin", "tools", "utils", "utilities"]),
   ("tests", ["tests", "test", "__tests__", "spec", "specs"]),
   ("docs", ["docs", "documentation", "doc"]),
   ("database", ["database", "db", "migrations", "seeds", "fixtures"])]

/-- `FOLDER_PATTERNS["frontend"]["frameworks"]`. -/
def frontendFrameworkNames : List String :=
  ["components", "pages", "views", "styles", "hooks"]

/-- `FOLDER_PATTERNS["backend"]["frameworks"]`. -/
def backendFrameworkNames : List String :=
  ["routes", "controllers", "models", "middleware", "handlers"]

/-- `FRONTEND_EXTENSIONS`. -/
def FRONTEND_EXTENSIONS : List String :=
  [".jsx", ".tsx", ".vue", ".svelte", ".html", ".css", ".scss", ".sass"]

/-- `BACKEND_EXTENSIONS`. -/
def BACKEND_EXTENSIONS : List String :=
  [".py", ".go", ".java", ".rs", ".rb", ".php"]

/-- `CONFIG_EXTENSIONS`. -/
def CONFIG_EXTENSIONS : List String :=
  [".yaml", ".yml", ".json", ".toml", ".ini", ".env", ".config"]

/-- `SCRIPT_EXTENSIONS`. -/
def SCRIPT_EXTENSIONS : List String :=
  [".sh", ".bash", ".zsh", ".ps1"]

/-- `_get_folder_from_path`: the top-level folder, or the empty string
for a path without a slash. -/
def get_folder_from_path (path : String) : String :=
  if path.toList.contains '/' then ((splitOnCharL '/' path.toList).headD []).asString
  else ""

/-- `_classify_by_name`: the first category one of whose name patterns is
a substring of the lowercased folder name, else misc. -/
def classify_by_name (folder : String) : String :=
  let folder_lower := pyLower folder
  match FOLDER_PATTERNS_names.find? (fun cat =>
    cat.2.any (fun name_pattern => pyInStr name_pattern folder_lower)) with
  | some cat => cat.1
  | none => "misc"

/-- The extension computed inside `_classify_by_content` (no lowering
there): a dot plus the part after the last dot, or empty. -/
def fileExtRaw (path : String) : String :=
  if path.toList.contains '.' then "." ++ (afterLastDotL path.toList).asString
  else ""

/-- The framework-pattern test on one path: the pattern appears as a
slash-delimited interior segment or as the final segment. -/
def hasPathSegment (pat : String) (path_lower : String) : Bool :=
  pyInStr ("/" ++ pat ++ "/") path_lower || pyEndsWith path_lower ("/" ++ pat)

/-- The files of a folder as filtered inside `_classify_by_content` and
for `file_count`: paths starting with the folder name plus a slash. -/
def folderFilesOf (folder : String) (files : List FileRec) : List FileRec :=
  files.filter (fun f => pyStartsWith f.path (folder ++ "/"))

/-- Frontend-extension file count of `_classify_by_content`. -/
def frontendCount (folder : String) (files : List FileRec) : Nat :=
  (folderFilesOf folder files).countP (fun f => FRONTEND_EXTENSIONS.contains (fileExtRaw f.path))

/-- Backend-extension file count of `_classify_by_content`. -/
def backendCount (folder : String) (files : List FileRec) : Nat :=
  (folderFilesOf folder files).countP (fun f => BACKEND_EXTENSIONS.contains (fileExtRaw f.path))

/-- Config-extension file count of `_classify_by_content`. -/
def configCount (folder : String) (files : List FileRec) : Nat :=
  (folderFilesOf folder files).countP (fun f => CONFIG_EXTENSIONS.contains (fileExtRaw f.path))

/-- Script-extension file count of `_classify_by_content`. -/
def scriptCount (folder : String) (files : List FileRec) : Nat :=
  (folderFilesOf folder files).countP (fun f => SCRIPT_EXTENSIONS.contains (fileExtRaw f.path))

/-- `has_frontend_patterns` of `_classify_by_content`. -/
def hasFrontendPatterns (folder : String) (files : List FileRec) : Bool :=
  (folderFilesOf folder files).any (fun f =>
    frontendFrameworkNames.any (fun pat => hasPathSegment pat (pyLower f.path)))

/-- `has_backend_patterns` of `_classify_by_content`. -/
def hasBackendPatterns (folder : String) (files : List FileRec) : Bool :=
  (folderFilesOf folder files).any (fun f =>
    backendFrameworkNames.any (fun pat => hasPathSegment pat (pyLower f.path)))

/-- `_classify_by_content`. The majority tests `count > len * 0.5` are
written `2 * count > len`: the float `len * 0.5` is exactly `len / 2`
(0.5 is a power of two and the counts are far below 2 to the 53), so the
integer form is the exact comparison the source performs. -/
def classify_by_content (folder : String) (files : List FileRec) : String :=
  let folder_files := folderFilesOf folder files
  if folder_files.isEmpty then "misc"
  else if hasFrontendPatterns folder files ||
      (frontendCount folder files > backendCount folder files &&
        frontendCount folder files > 2) then "frontend"
  else if hasBackendPatterns folder files ||
      (backendCount folder files > frontendCount folder files &&
        backendCount folder files > 2) then "backend"
  else if 2 * configCount folder files > folder_files.length then "config"
  else if 2 * scriptCount folder files > folder_files.length then "scripts"
  else "misc"

/-- One value of the dictionary returned by `classify_folders`. -/
structure FolderClassification where
  role : String
  file_count : Nat
deriving DecidableEq

/-- `classify_folders`: the distinct top-level folders in sorted order,
each classified by name first and by content when the name pass says
misc, with its file count. -/
def classify_folders (files : List FileRec) : List (String × FolderClassification) :=
  let folders := firstOccs
    ((files.map (fun f => get_folder_from_path f.path)).filter (fun s => s ≠ ""))
  (pySorted folders).map (fun folder =>
    let name_classification := classify_by_name folder
    let classification :=
      if name_classification = "misc" then classify_by_content folder files
      else name_classification
    let file_count := (files.filter (fun f => pyStartsWith f.path (folder ++ "/"))).length
    (folder, ⟨classification, file_count⟩))

/-! ## src/graph/flow_builder.py -/

/-- One stage dict of an `ExecutionFlow`. -/
structure FlowStage where
  id : String
  stype : String
  components : List String
  description : String
deriving DecidableEq

/-- One connection dict of an `ExecutionFlow`. -/
structure FlowConnection where
  fromStage : String
  toStage : String
  label : String
deriving DecidableEq

/-- `ExecutionFlow` from src/graph/flow_builder.py. -/
structure ExecutionFlow where
  stages : List FlowStage
  connections : List FlowConnection
deriving DecidableEq

/-- The empty flow built by `ExecutionFlow.__init__`. -/
def ExecutionFlow.init : ExecutionFlow := ⟨[], []⟩

/-- `ExecutionFlow.add_stage`. -/
def ExecutionFlow.add_stage (fl : ExecutionFlow) (stage_id stage_type : String)
    (components : List String) (description : String) : ExecutionFlow :=
  { fl with stages := fl.stages ++ [⟨stage_id, stage_type, components, description⟩] }

/-- `ExecutionFlow.add_connection`. -/
def ExecutionFlow.add_connection (fl : ExecutionFlow)
    (from_stage to_stage label : String) : ExecutionFlow :=
  { fl with connections := fl.connections ++ [⟨from_stage, to_stage, label⟩] }

/-- A folder summary as read by the flow builder (`role` and `folder`
entries). -/
structure FolderSummary where
  role : String
  folder : String
deriving DecidableEq

/-- `_identify_backend_components` (the frameworks argument is unused by
the source body). -/
def identify_backend_components (folder_summaries : List FolderSummary)
    (frameworks : List String) : List String :=
  (folder_summaries.filter (fun s => ["backend", "api", "services"].contains s.role)).map
    (fun s => s.folder)

/-- `_identify_database_components`: database-role folders, then the
detected databases appended. -/
def identify_database_components (folder_summaries : List FolderSummary)
    (databases : List String) : List String :=
  ((folder_summaries.filter (fun s => ["database", "models"].contains s.role)).map
    (fun s => s.folder)) ++ databases

/-- `_identify_frontend_components`. -/
def identify_frontend_components (folder_summaries : List FolderSummary) : List String :=
  (folder_summaries.filter (fun s => ["frontend", "client", "ui"].contains s.role)).map
    (fun s => s.folder)

/-- `_identify_middleware_components`. -/
def identify_middleware_components (folder_summaries : List FolderSummary) : List String :=
  (folder_summaries.filter (fun s =>
    ["middleware", "utils", "utilities", "scripts"].contains s.role)).map
    (fun s => s.folder)

/-- Stage 1 of `build_execution_flow`: the entry-point stage, added when
entry points exist. -/
def flowStageEntry (all_entries : List String) (fl : ExecutionFlow) : ExecutionFlow :=
  if all_entries ≠ [] then
    fl.add_stage "entry" "entry_point" (all_entries.take 5) "Application entry points"
  else fl

/-- Stage 2 of `build_execution_flow`: the frontend stage, with the
entry-to-frontend connection when a web framework was detected. -/
def flowStageFrontend (all_entries frontend_components frameworks : List String)
    (fl : ExecutionFlow) : ExecutionFlow :=
  if frontend_components ≠ [] then
    let fa := fl.add_stage "frontend" "frontend" frontend_components "Frontend/UI layer"
    if all_entries ≠ [] &&
        frameworks.any (fun fw => ["React", "Vue", "Angular", "Next.js", "Svelte"].contains fw) then
      fa.add_connection "entry" "frontend" "Renders UI"
    else fa
  else fl

/-- Stage 3 of `build_execution_flow`: the backend stage, connected from
the frontend when one exists, else from the entry stage. -/
def flowStageBackend (all_entries frontend_components backend_components : List String)
    (fl : ExecutionFlow) : ExecutionFlow :=
  if backend_components ≠ [] then
    let fb := fl.add_stage "backend" "backend" backend_components
      "Backend services and APIs"
    if frontend_components ≠ [] then fb.add_connection "frontend" "backend" "API calls"
    else if all_entries ≠ [] then fb.add_connection "entry" "backend" "Processes requests"
    else fb
  else fl

/-- Stage 4 of `build_execution_flow`: the middleware stage, added only
for at least two middleware components. -/
def flowStageMiddleware (middleware_components backend_components : List String)
    (fl : ExecutionFlow) : ExecutionFlow :=
  if middleware_components ≠ [] && middleware_components.length ≥ 2 then
    let fm := fl.add_stage "middleware" "middleware" middleware_components
      "Middleware and utilities"
    if backend_components ≠ [] then fm.add_connection "backend" "middleware" "Uses utilities"
    else fm
  else fl

/-- Stage 5 of `build_execution_flow`: the database stage, connected
from the backend when one exists, else from the entry stage. -/
def flowStageDatabase (all_entries backend_components db_components : List String)
    (fl : ExecutionFlow) : ExecutionFlow :=
  if db_components ≠ [] then
    let fd := fl.add_stage "database" "database" db_components "Data persistence layer"
    if backend_components ≠ [] then fd.add_connection "backend" "database" "Data operations"
    else if all_entries ≠ [] then fd.add_connection "entry" "database" "Data operations"
    else fd
  else fl

/-- Stage 6 of `build_execution_flow`: the external-services stage. -/
def flowStageExternal (external_services backend_components : List String)
    (fl : ExecutionFlow) : ExecutionFlow :=
  if external_services ≠ [] then
    let fe := fl.add_stage "external" "external_services" external_services
      "External services and infrastructure"
    if backend_components ≠ [] then fe.add_connection "backend" "external" "External calls"
    else fe
  else fl

/-- `build_execution_flow`: the six conditional stage blocks of the
source, applied in their fixed order to the empty flow. -/
def build_execution_flow (entrypoints : EntrypointsResult)
    (folder_summaries : List FolderSummary)
    (frameworks databases infrastructure : List String) : ExecutionFlow :=
  let entry_files := entrypoints.application_files.map (fun e => e.path)
  let framework_entries := entrypoints.framework_entrypoints.map (fun e => e.path)
  let all_entries := entry_files ++ framework_entries
  let frontend_components := identify_frontend_components folder_summaries
  let backend_components := identify_backend_components folder_summaries frameworks
  let middleware_components := identify_middleware_components folder_summaries
  let db_components := identify_database_components folder_summaries databases
  let external_services :=
    (if infrastructure.any (fun infra => ["Docker", "Kubernetes"].contains infra) then
      ["Container orchestration"] else []) ++
    (if databases.contains "Redis" then ["Redis (caching/queue)"] else []) ++
    (if databases.contains "Elasticsearch" then ["Elasticsearch (search)"] else [])
  flowStageExternal external_services backend_components
    (flowStageDatabase all_entries backend_components db_components
      (flowStageMiddleware middleware_components backend_components
        (flowStageBackend all_entries frontend_components backend_components
          (flowStageFrontend all_entries frontend_components frameworks
            (flowStageEntry all_entries ExecutionFlow.init)))))

/-! ## Concrete scenario inputs -/

/-- The two-file Flask scenario with a content that matches a Flask
entrypoint pattern (`app = Flask(` appears). -/
def c1ScenarioFiles : List FileRec :=
  [⟨"src/app.py",
    "from flask import Flask\napp = Flask(__name__)\nif __name__ == " ++
      dqChar.toString ++ "__main__" ++ dqChar.toString ++ ":\n    app.run()"⟩,
   ⟨"requirements.txt", "flask==2.0"⟩]

/-- The two-file Flask scenario whose app content contains only the two
fragments named by the spec scenario. -/
def c1MinimalFiles : List FileRec :=
  [⟨"src/app.py", "from flask import Flask\napp.run()"⟩,
   ⟨"requirements.txt", "flask==2.0"⟩]

/-- A single file whose content matches both the Flask and the FastAPI
entrypoint patterns, so two framework candidate records share one path. -/
def c2DupFiles : List FileRec :=
  [⟨"x.py", "app = Flask(\napp = FastAPI("⟩]

/-- The two-file import scenario of the dependency-graph claims. -/
def c5Files : List FileRec :=
  [⟨"a.py", "import b"⟩, ⟨"b.py", "x = 1"⟩]

/-- A three-file folder with two config files and one backend file and no
role-indicative path segment. -/
def c7Files : List FileRec :=
  [⟨"pkg/a.json", ""⟩, ⟨"pkg/b.json", ""⟩, ⟨"pkg/c.py", "x = 1"⟩]

/-- Three classified files, two Python and one JavaScript. -/
def c8Files : List FileRec :=
  [⟨"a.py", "x = 1"⟩, ⟨"b.py", "y = 2"⟩, ⟨"c.js", "z"⟩]

/-- Folder summaries with one backend folder and one database folder. -/
def c9Summaries : List FolderSummary :=
  [⟨"backend", "srv"⟩, ⟨"database", "db"⟩]

/-! ## Helper lemmas -/

theorem mem_pySorted (l : List String) (x : String) : x ∈ pySorted l ↔ x ∈ l :=
  List.mem_insertionSort pyStrLe

theorem mem_firstOccs {α : Type} [DecidableEq α] (l : List α) (x : α) :
    x ∈ firstOccs l ↔ x ∈ l := by
  induction l with
  | nil => simp [firstOccs]
  | cons y ys ih =>
    simp only [firstOccs, List.mem_cons, List.mem_filter, ih]
    constructor
    · rintro (rfl | ⟨hx, _⟩)
      · exact Or.inl rfl
      · exact Or.inr hx
    · rintro (rfl | hx)
      · exact Or.inl rfl
      · by_cases hxy : x = y
        · exact Or.inl hxy
        · exact Or.inr ⟨hx, by simpa using hxy⟩

theorem firstOccs_nodup {α : Type} [DecidableEq α] (l : List α) : (firstOccs l).Nodup := by
  induction l with
  | nil => simp [firstOccs]
  | cons y ys ih =>
    simp only [firstOccs]
    refine List.nodup_cons.mpr ⟨?_, List.Nodup.filter _ ih⟩
    intro hmem
    have := (List.mem_filter.mp hmem).2
    simp at this

theorem getLast?_mem {α : Type} (l : List α) (a : α) (h : l.getLast? = some a) : a ∈ l := by
  induction l with
  | nil => simp at h
  | cons x xs ih =>
    cases hx : xs with
    | nil => subst hx; simp_all
    | cons y ys =>
      subst hx
      rw [List.getLast?_cons_cons] at h
      exact List.mem_cons_of_mem _ (ih h)

theorem getLast?_filter_isSome {α : Type} (l : List α) (p : α → Bool) (a : α)
    (ha : a ∈ l) (hp : p a = true) : ∃ r, (l.filter p).getLast? = some r := by
  cases hq : (l.filter p).getLast? with
  | none =>
    have : l.filter p = [] := List.getLast?_eq_none_iff.mp hq
    have : a ∈ l.filter p := List.mem_filter.mpr ⟨ha, hp⟩
    simp_all
  | some r => exact ⟨r, rfl⟩

theorem getLast?_filter_prop {α : Type} (l : List α) (p : α → Bool) (r : α)
    (h : (l.filter p).getLast? = some r) : r ∈ l ∧ p r = true := by
  have hr := getLast?_mem _ _ h
  have := List.mem_filter.mp hr
  exact this

theorem map_filterMap_keyed {α : Type} (F : List String) (f : String → Option α)
    (key : α → String) (h : ∀ k ∈ F, ∃ r, f k = some r ∧ key r = k) :
    (F.filterMap f).map key = F := by
  induction F with
  | nil => simp
  | cons k ks ih =>
    obtain ⟨r, hr, hk⟩ := h k (List.mem_cons_self _ _)
    simp only [List.filterMap_cons, hr, List.map_cons, hk]
    rw [ih (fun x hx => h x (List.mem_cons_of_mem _ hx))]

theorem dedupByKey_map_key {α : Type} (key : α → String) (l : List α) :
    (dedupByKey key l).map key = firstOccs (l.map key) := by
  unfold dedupByKey
  apply map_filterMap_keyed
  intro k hk
  have hk2 : k ∈ l.map key := (mem_firstOccs _ _).mp hk
  obtain ⟨a, ha, hak⟩ := List.mem_map.mp hk2
  obtain ⟨r, hr⟩ := getLast?_filter_isSome l (fun x => key x = k) a ha (by simp [hak])
  refine ⟨r, hr, ?_⟩
  have := (getLast?_filter_prop l _ r hr).2
  simpa using this

theorem dedupByKey_last {α : Type} (key : α → String) (l : List α) (r : α)
    (h : r ∈ dedupByKey key l) :
    (l.filter (fun a => key a = key r)).getLast? = some r := by
  unfold dedupByKey at h
  obtain ⟨k, _, hfk⟩ := List.mem_filterMap.mp h
  have hk : key r = k := by simpa using (getLast?_filter_prop l _ r hfk).2
  rw [hk]
  exact hfk

theorem dictGetD_dictSetAdd (m : List (String × List String)) (k v a : String) :
    dictGetD (dictSetAdd m k v) a =
      if a = k then (if v ∈ dictGetD m k then dictGetD m k else dictGetD m k ++ [v])
      else dictGetD m a := by
  induction m with
  | nil =>
    by_cases h : a = k
    · subst h; simp [dictSetAdd, dictGetD]
    · simp [dictSetAdd, dictGetD, if_neg h, if_neg (Ne.symm h)]
  | cons p rest ih =>
    obtain ⟨k2, vs⟩ := p
    by_cases h2 : k2 = k
    · subst h2
      by_cases h3 : a = k2
      · subst h3; simp [dictSetAdd, dictGetD]
      · simp [dictSetAdd, dictGetD, if_neg h3, if_neg (Ne.symm h3)]
    · by_cases h3 : k2 = a
      · subst h3
        have hak : ¬ k2 = k := h2
        simp [dictSetAdd, dictGetD, if_neg h2, if_neg hak]
      · simp only [dictSetAdd, if_neg h2, dictGetD, if_neg h3]
        exact ih

theorem mem_dictGetD_dictSetAdd (m : List (String × List String)) (k v a b : String) :
    b ∈ dictGetD (dictSetAdd m k v) a ↔ b ∈ dictGetD m a ∨ (a = k ∧ b = v) := by
  rw [dictGetD_dictSetAdd]
  split_ifs with h hv
  · subst h
    constructor
    · exact fun hb => Or.inl hb
    · rintro (hb | ⟨-, rfl⟩)
      · exact hb
      · exact hv
  · subst h
    rw [List.mem_append, List.mem_singleton]
    constructor
    · rintro (hb | rfl)
      · exact Or.inl hb
      · exact Or.inr ⟨rfl, rfl⟩
    · rintro (hb | ⟨-, rfl⟩)
      · exact Or.inl hb
      · exact Or.inr rfl
  · simp [h]

theorem dictGetD_eq_nil_of_not_key (m : List (String × List String)) (k : String)
    (h : k ∉ dictKeys m) : dictGetD m k = [] := by
  induction m with
  | nil => rfl
  | cons p rest ih =>
    obtain ⟨k2, vs⟩ := p
    simp only [dictKeys, List.map_cons, List.mem_cons] at h
    push_neg at h
    simp only [dictGetD, if_neg (Ne.symm h.1)]
    exact ih (by simpa [dictKeys] using h.2)

theorem foldl_preserve {α β : Type} (P : α → Prop) (step : α → β → α)
    (h : ∀ a b, P a → P (step a b)) : ∀ (l : List β) (a : α), P a → P (l.foldl step a) := by
  intro l
  induction l with
  | nil => intro a ha; simpa using ha
  | cons x xs ih => intro a ha; simpa using ih (step a x) (h a x ha)

/-! ## Dependency graph invariants -/

theorem add_edge_mutual (g : DependencyGraph) (f t : String)
    (h : ∀ a b, b ∈ dictGetD g.edges a ↔ a ∈ dictGetD g.reverse_edges b) :
    ∀ a b, b ∈ dictGetD (g.add_edge f t).edges a ↔
      a ∈ dictGetD (g.add_edge f t).reverse_edges b := by
  intro a b
  simp only [DependencyGraph.add_edge]
  rw [mem_dictGetD_dictSetAdd, mem_dictGetD_dictSetAdd, h a b]
  constructor
  · rintro (hm | ⟨rfl, rfl⟩)
    · exact Or.inl hm
    · exact Or.inr ⟨rfl, rfl⟩
  · rintro (hm | ⟨rfl, rfl⟩)
    · exact Or.inl hm
    · exact Or.inr ⟨rfl, rfl⟩

theorem buildGraphStep_mutual (paths : List String) (g : DependencyGraph) (f : FileRec)
    (h : ∀ a b, b ∈ dictGetD g.edges a ↔ a ∈ dictGetD g.reverse_edges b) :
    ∀ a b, b ∈ dictGetD (buildGraphStep paths g f).edges a ↔
      a ∈ dictGetD (buildGraphStep paths g f).reverse_edges b := by
  unfold buildGraphStep
  split
  · exact h
  · dsimp only
    apply foldl_preserve
      (fun g2 : DependencyGraph => ∀ a b,
        b ∈ dictGetD g2.edges a ↔ a ∈ dictGetD g2.reverse_edges b)
    · intro g2 import_name hg2
      cases resolve_import_to_file import_name paths with
      | none => exact hg2
      | some resolved =>
        simp only
        split
        · exact add_edge_mutual g2 f.path resolved hg2
        · exact hg2
    · exact h

theorem add_edge_no_self (g : DependencyGraph) (f t : String) (hft : f ≠ t)
    (h : ∀ a, a ∉ dictGetD g.edges a) :
    ∀ a, a ∉ dictGetD (g.add_edge f t).edges a := by
  intro a hmem
  simp only [DependencyGraph.add_edge] at hmem
  rcases (mem_dictGetD_dictSetAdd g.edges f t a a).mp hmem with hm | ⟨rfl, rfl⟩
  · exact h a hm
  · exact hft rfl

theorem buildGraphStep_no_self (paths : List String) (g : DependencyGraph) (f : FileRec)
    (h : ∀ a, a ∉ dictGetD g.edges a) :
    ∀ a, a ∉ dictGetD (buildGraphStep paths g f).edges a := by
  unfold buildGraphStep
  split
  · exact h
  · dsimp only
    apply foldl_preserve (fun g2 : DependencyGraph => ∀ a, a ∉ dictGetD g2.edges a)
    · intro g2 import_name hg2
      cases hres : resolve_import_to_file import_name paths with
      | none => exact hg2
      | some resolved =>
        simp only
        split
        · rename_i hcond
          have hne : resolved ≠ f.path := by
            have := (Bool.and_eq_true _ _).mp hcond
            simpa using this.2
          exact add_edge_no_self g2 f.path resolved (Ne.symm hne) hg2
        · exact hg2
    · exact h

theorem build_dependency_graph_def (files : List FileRec) :
    build_dependency_graph files =
      files.foldl (buildGraphStep (files.map (fun f => f.path))) DependencyGraph.init := rfl

/-- C3: for every graph produced by `build_dependency_graph` and every
pair of paths A and B, B is in `get_upstream(A)` exactly when A is in
`get_downstream(B)`: the forward edge map and the reverse index are
mutual inverses. -/
theorem upstream_downstream_mutual_inverse (files : List FileRec) (A B : String) :
    B ∈ (build_dependency_graph files).get_upstream A ↔
      A ∈ (build_dependency_graph files).get_downstream B := by
  have hInv : ∀ a b, b ∈ dictGetD (build_dependency_graph files).edges a ↔
      a ∈ dictGetD (build_dependency_graph files).reverse_edges b :=
    foldl_preserve
      (fun g : DependencyGraph => ∀ a b,
        b ∈ dictGetD g.edges a ↔ a ∈ dictGetD g.reverse_edges b)
      (buildGraphStep (files.map (fun f : FileRec => f.path)))
      (buildGraphStep_mutual (files.map (fun f : FileRec => f.path)))
      files DependencyGraph.init
      (fun a b => by simp [DependencyGraph.init, dictGetD])
  simp only [DependencyGraph.get_upstream, DependencyGraph.get_downstream,
    DependencyGraph.get_upstreamSt, DependencyGraph.get_downstreamSt]
  rw [mem_pySorted, mem_pySorted]
  exact hInv A B

/-- C4: no graph returned by `build_dependency_graph` contains a
self-loop: an import resolving to the importing file itself is dropped
rather than recorded, so B is never in `get_upstream(B)`. -/
theorem no_self_loop (files : List FileRec) (B : String) :
    B ∉ (build_dependency_graph files).get_upstream B := by
  have hInv : ∀ a, a ∉ dictGetD (build_dependency_graph files).edges a :=
    foldl_preserve (fun g : DependencyGraph => ∀ a, a ∉ dictGetD g.edges a)
      (buildGraphStep (files.map (fun f : FileRec => f.path)))
      (buildGraphStep_no_self (files.map (fun f : FileRec => f.path)))
      files DependencyGraph.init
      (fun a => by simp [DependencyGraph.init, dictGetD])
  simp only [DependencyGraph.get_upstream, DependencyGraph.get_upstreamSt]
  rw [mem_pySorted]
  exact hInv B

/-- C5: the two-file scenario, `a.py` importing `b` next to `b.py`,
yields the node set consisting of the two paths, the single edge from
`a.py` to `b.py`, `get_upstream("a.py") = ["b.py"]` and
`get_downstream("b.py") = ["a.py"]`. -/
theorem two_file_scenario_graph :
    (build_dependency_graph c5Files).get_all_nodes = ["a.py", "b.py"] ∧
    (build_dependency_graph c5Files).get_upstream "a.py" = ["b.py"] ∧
    (build_dependency_graph c5Files).get_upstream "b.py" = [] ∧
    (build_dependency_graph c5Files).get_downstream "b.py" = ["a.py"] ∧
    (build_dependency_graph c5Files).get_downstream "a.py" = [] := by
  decide

/-- C10: the query methods are pure observers: each returns its value
with the graph state unchanged, and querying a node absent from the edge
maps yields the empty list without inserting a key. -/
theorem query_methods_pure (g : DependencyGraph) (n : String) :
    (g.get_upstreamSt n).2 = g ∧ (g.get_downstreamSt n).2 = g ∧
    g.get_all_nodesSt.2 = g ∧ g.to_dictSt.2 = g ∧
    (n ∉ dictKeys g.edges → (g.get_upstreamSt n).1 = []) ∧
    (n ∉ dictKeys g.reverse_edges → (g.get_downstreamSt n).1 = []) := by
  refine ⟨rfl, rfl, rfl, rfl, ?_, ?_⟩
  · intro hn
    simp only [DependencyGraph.get_upstreamSt]
    rw [dictGetD_eq_nil_of_not_key g.edges n hn]
    rfl
  · intro hn
    simp only [DependencyGraph.get_downstreamSt]
    rw [dictGetD_eq_nil_of_not_key g.reverse_edges n hn]
    rfl

theorem query_methods_pure_witness :
    ("zzz" ∉ dictKeys (build_dependency_graph c5Files).edges) ∧
    ((build_dependency_graph c5Files).get_upstreamSt "zzz").1 = [] ∧
    ((build_dependency_graph c5Files).get_upstreamSt "zzz").2 =
      build_dependency_graph c5Files := by
  have h := query_methods_pure (build_dependency_graph c5Files) "zzz"
  exact ⟨by decide, h.2.2.2.2.1 (by decide), h.1⟩

/-! ## Entrypoint finder and stack detector claims -/

/-- C1 counterexample: a `src/app.py` whose content contains exactly the
two fragments the scenario names (the flask import and `app.run()`)
still produces an empty `framework_entrypoints` list — no Flask
entrypoint pattern matches, since the if-main pattern requires
`app.run(` on the same line and neither `app = Flask(` nor a route
decorator is present — even though `detect_frameworks` does yield Flask. -/
theorem flask_scenario_counterexample :
    pyInStr "from flask import Flask" "from flask import Flask\napp.run()" = true ∧
    pyInStr "app.run()" "from flask import Flask\napp.run()" = true ∧
    pyInStr "flask==2.0" "flask==2.0" = true ∧
    "Flask" ∈ detect_frameworks c1MinimalFiles ∧
    (find_entrypoints c1MinimalFiles).framework_entrypoints = [] := by
  decide

/-- C1 (amended): for the Flask scenario whose `src/app.py` content also
contains `app = Flask(`, the pipeline yields Flask in
`detect_frameworks`, Flask as a detected framework in `find_entrypoints`,
and `src/app.py` in the `framework_entrypoints` list. -/
theorem flask_scenario_amended :
    "Flask" ∈ detect_frameworks c1ScenarioFiles ∧
    (∃ r ∈ (find_entrypoints c1ScenarioFiles).framework_entrypoints,
      r.framework = "Flask") ∧
    (∃ r ∈ (find_entrypoints c1ScenarioFiles).framework_entrypoints,
      r.path = "src/app.py") := by
  decide

/-- C2 counterexample: a file whose content matches both the Flask and
the FastAPI patterns produces two candidate records sharing path `x.py`,
first Flask then FastAPI; the deduplicated `framework_entrypoints` list
keeps the FastAPI record — the last-seen one, not the first-seen. -/
theorem dedup_keeps_last_counterexample :
    frameworkEntrypointCandidates c2DupFiles =
      [⟨"x.py", "Flask"⟩, ⟨"x.py", "FastAPI"⟩] ∧
    (find_entrypoints c2DupFiles).framework_entrypoints = [⟨"x.py", "FastAPI"⟩] := by
  decide

/-- C2 (amended): the application-file and framework-entrypoint lists of
`find_entrypoints` hold at most one record per path, with the paths in
first-occurrence order of the candidate lists, and the record kept for a
path is the last-seen candidate with that path; the docker list is the
raw candidate list, not deduplicated. -/
theorem entrypoint_dedup_spec (files : List FileRec) :
    ((find_entrypoints files).application_files.map (fun r => r.path) =
      firstOccs ((applicationFileCandidates files).map (fun r => r.path))) ∧
    ((find_entrypoints files).application_files.map (fun r => r.path)).Nodup ∧
    (∀ rec ∈ (find_entrypoints files).application_files,
      ((applicationFileCandidates files).filter
        (fun a => a.path = rec.path)).getLast? = some rec) ∧
    ((find_entrypoints files).framework_entrypoints.map (fun r => r.path) =
      firstOccs ((frameworkEntrypointCandidates files).map (fun r => r.path))) ∧
    ((find_entrypoints files).framework_entrypoints.map (fun r => r.path)).Nodup ∧
    (∀ rec ∈ (find_entrypoints files).framework_entrypoints,
      ((frameworkEntrypointCandidates files).filter
        (fun a => a.path = rec.path)).getLast? = some rec) ∧
    (find_entrypoints files).docker_entrypoints = dockerEntrypointCandidates files := by
  have h1 := dedupByKey_map_key (fun r : AppFileRec => r.path) (applicationFileCandidates files)
  have h2 := dedupByKey_map_key (fun r : FrameworkRec => r.path)
    (frameworkEntrypointCandidates files)
  refine ⟨h1, ?_, ?_, h2, ?_, ?_, rfl⟩
  · rw [show (find_entrypoints files).application_files.map (fun r => r.path) =
      firstOccs ((applicationFileCandidates files).map (fun r => r.path)) from h1]
    exact firstOccs_nodup _
  · intro rec hrec
    exact dedupByKey_last (fun r : AppFileRec => r.path) (applicationFileCandidates files)
      rec hrec
  · rw [show (find_entrypoints files).framework_entrypoints.map (fun r => r.path) =
      firstOccs ((frameworkEntrypointCandidates files).map (fun r => r.path)) from h2]
    exact firstOccs_nodup _
  · intro rec hrec
    exact dedupByKey_last (fun r : FrameworkRec => r.path)
      (frameworkEntrypointCandidates files) rec hrec

theorem entrypoint_dedup_spec_witness :
    (⟨"x.py", "FastAPI"⟩ : FrameworkRec) ∈
      (find_entrypoints c2DupFiles).framework_entrypoints ∧
    ((frameworkEntrypointCandidates c2DupFiles).filter
      (fun a => a.path = "x.py")).getLast? = some ⟨"x.py", "FastAPI"⟩ := by
  have h := (entrypoint_dedup_spec c2DupFiles).2.2.2.2.2.1
    ⟨"x.py", "FastAPI"⟩ (by decide)
  exact ⟨by decide, by simpa using h⟩

/-! ## Folder classification content fallback (C7) -/

/-- C7: in the content fallback, when no role-indicative path segment is
present in the folder, the result is frontend exactly when the frontend
extension count strictly exceeds the backend count and exceeds 2,
backend symmetrically; config (resp. scripts) only when the config
(resp. script) extension files are a strict majority of the folder's
files; and misc whenever none of these thresholds is met. -/
theorem content_fallback_thresholds (folder : String) (files : List FileRec)
    (hf : hasFrontendPatterns folder files = false)
    (hb : hasBackendPatterns folder files = false) :
    (classify_by_content folder files = "frontend" ↔
      frontendCount folder files > backendCount folder files ∧
        frontendCount folder files > 2) ∧
    (classify_by_content folder files = "backend" ↔
      backendCount folder files > frontendCount folder files ∧
        backendCount folder files > 2) ∧
    (classify_by_content folder files = "config" →
      2 * configCount folder files > (folderFilesOf folder files).length) ∧
    (classify_by_content folder files = "scripts" →
      2 * scriptCount folder files > (folderFilesOf folder files).length) ∧
    (¬(frontendCount folder files > backendCount folder files ∧
        frontendCount folder files > 2) →
     ¬(backendCount folder files > frontendCount folder files ∧
        backendCount folder files > 2) →
     ¬(2 * configCount folder files > (folderFilesOf folder files).length) →
     ¬(2 * scriptCount folder files > (folderFilesOf folder files).length) →
      classify_by_content folder files = "misc") := by
  unfold classify_by_content
  by_cases hemp : (folderFilesOf folder files).isEmpty = true
  · have hnil : folderFilesOf folder files = [] := List.isEmpty_iff.mp hemp
    have hfc : frontendCount folder files = 0 := by simp [frontendCount, hnil]
    have hbc : backendCount folder files = 0 := by simp [backendCount, hnil]
    simp [hemp, hfc, hbc]
  · simp only [hemp, if_false, hf, hb, Bool.false_or]
    split_ifs with h1 h2 h3 h4 <;>
      simp_all only [Bool.and_eq_true, decide_eq_true_eq, not_and, not_lt] <;>
      refine ⟨?_, ?_, ?_, ?_, ?_⟩ <;>
      simp_all <;> omega

theorem content_fallback_thresholds_witness :
    hasFrontendPatterns "pkg" c7Files = false ∧
    hasBackendPatterns "pkg" c7Files = false ∧
    (classify_by_content "pkg" c7Files = "config" →
      2 * configCount "pkg" c7Files > (folderFilesOf "pkg" c7Files).length) ∧
    classify_by_content "pkg" c7Files = "config" := by
  have h := content_fallback_thresholds "pkg" c7Files (by decide) (by decide)
  exact ⟨by decide, by decide, h.2.2.1, by decide⟩

/-! ## Language statistics (C8) -/

theorem bumpBy_ne_nil (m : List (String × Nat)) (k : String) (n : Nat) :
    bumpBy m k n ≠ [] := by
  cases m with
  | nil => simp [bumpBy]
  | cons p rest =>
    obtain ⟨k2, c⟩ := p
    simp only [bumpBy]
    split <;> simp

theorem pyMax_foldl_spec :
    ∀ (xs : List (String × Nat)) (acc m : String × Nat),
      xs.foldl (fun a y => if y.2 > a.2 then y else a) acc = m →
      (m = acc ∧ ∀ p ∈ xs, p.2 ≤ acc.2) ∨
      (∃ pre post, xs = pre ++ m :: post ∧ acc.2 < m.2 ∧
        (∀ p ∈ pre, p.2 < m.2) ∧ (∀ p ∈ post, p.2 ≤ m.2)) := by
  intro xs
  induction xs with
  | nil =>
    intro acc m hm
    left
    exact ⟨hm.symm, by simp⟩
  | cons y ys ih =>
    intro acc m hm
    simp only [List.foldl_cons] at hm
    by_cases hy : y.2 > acc.2
    · rw [if_pos hy] at hm
      rcases ih y m hm with ⟨rfl, hall⟩ | ⟨pre, post, heq, hlt, hpre, hpost⟩
      · right
        exact ⟨[], ys, by simp, hy, by simp, hall⟩
      · right
        refine ⟨y :: pre, post, by simp [heq], lt_trans hy hlt, ?_, hpost⟩
        intro p hp
        rcases List.mem_cons.mp hp with rfl | hp2
        · exact hlt
        · exact hpre p hp2
    · rw [if_neg hy] at hm
      rcases ih acc m hm with ⟨rfl, hall⟩ | ⟨pre, post, heq, hlt, hpre, hpost⟩
      · left
        refine ⟨rfl, ?_⟩
        intro p hp
        rcases List.mem_cons.mp hp with rfl | hp2
        · omega
        · exact hall p hp2
      · right
        refine ⟨y :: pre, post, by simp [heq], hlt, ?_, hpost⟩
        intro p hp
        rcases List.mem_cons.mp hp with rfl | hp2
        · omega
        · exact hpre p hp2

theorem tallies_counts_nil :
    ∀ (files : List FileRec) (st : List (String × Nat) × List (String × Nat) × Nat),
      ((files.foldl languageTallyStep st).1 = [] ↔
        st.1 = [] ∧ ∀ f ∈ files, detect_language f.path = "Unknown") := by
  intro files
  induction files with
  | nil => intro st; simp
  | cons f fs ih =>
    intro st
    simp only [List.foldl_cons]
    by_cases hc : detect_language f.path = "Unknown"
    · rw [show languageTallyStep st f = st from by simp [languageTallyStep, hc]]
      rw [ih st]
      simp [List.forall_mem_cons, hc]
    · have hstep : (languageTallyStep st f).1 = bumpBy st.1 (detect_language f.path) 1 := by
        simp [languageTallyStep, hc]
      rw [ih (languageTallyStep st f)]
      constructor
      · rintro ⟨h1, -⟩
        exact absurd (hstep ▸ h1) (bumpBy_ne_nil _ _ _)
      · rintro ⟨-, hall⟩
        exact absurd (hall f (List.mem_cons_self f fs)) hc

theorem tallies_total :
    ∀ (files : List FileRec) (st : List (String × Nat) × List (String × Nat) × Nat),
      (files.foldl languageTallyStep st).2.2 =
        st.2.2 + files.countP (fun f => detect_language f.path ≠ "Unknown") := by
  intro files
  induction files with
  | nil => intro st; simp
  | cons f fs ih =>
    intro st
    simp only [List.foldl_cons, List.countP_cons]
    by_cases hc : detect_language f.path = "Unknown"
    · rw [show languageTallyStep st f = st from by simp [languageTallyStep, hc]]
      rw [ih st]
      simp [hc]
    · have hstep : (languageTallyStep st f).2.2 = st.2.2 + 1 := by
        simp [languageTallyStep, hc]
      rw [ih (languageTallyStep st f), hstep]
      simp [hc]
      omega

/-- C8: `primary_language` is null exactly when no file classifies to a
known language, and otherwise it is the first-encountered language whose
file count is maximal: the counts list splits around its entry, with all
earlier languages strictly below its count (so no earlier tie) and all
later ones at most equal. -/
theorem primary_language_spec (files : List FileRec) :
    ((get_repo_language_stats files).primary_language = none ↔
      ∀ f ∈ files, detect_language f.path = "Unknown") ∧
    (∀ lang, (get_repo_language_stats files).primary_language = some lang →
      ∃ c pre post, (languageTallies files).1 = pre ++ (lang, c) :: post ∧
        (∀ p ∈ pre, p.2 < c) ∧ (∀ p ∈ post, p.2 ≤ c)) := by
  have htot := tallies_total files ([], [], 0)
  simp only [Nat.zero_add] at htot
  have hnil := tallies_counts_nil files ([], [], 0)
  by_cases h0 : (languageTallies files).2.2 = 0
  · have hprim : (get_repo_language_stats files).primary_language = none := by
      simp [get_repo_language_stats, h0]
    have hall : ∀ f ∈ files, detect_language f.path = "Unknown" := by
      have hcount : files.countP (fun f => detect_language f.path ≠ "Unknown") = 0 := by
        simp only [languageTallies] at h0
        omega
      intro f hf
      have := List.countP_eq_zero.mp hcount f hf
      simpa using this
    refine ⟨⟨fun _ => hall, fun _ => hprim⟩, ?_⟩
    intro lang hl
    rw [hprim] at hl
    simp at hl
  · have hcount0 : files.countP (fun f => detect_language f.path ≠ "Unknown") ≠ 0 := by
      simp only [languageTallies] at h0
      omega
    have hcne : (languageTallies files).1 ≠ [] := by
      intro hq
      have hallu := (hnil.mp (by simpa [languageTallies] using hq)).2
      exact hcount0 (List.countP_eq_zero.mpr (fun f hf => by simp [hallu f hf]))
    obtain ⟨x, xs, hxs⟩ : ∃ x xs, (languageTallies files).1 = x :: xs := by
      cases hq : (languageTallies files).1 with
      | nil => exact absurd hq hcne
      | cons x xs => exact ⟨x, xs, rfl⟩
    have hprim : (get_repo_language_stats files).primary_language =
        some ((xs.foldl (fun a y => if y.2 > a.2 then y else a) x).1) := by
      simp [get_repo_language_stats, h0, hxs, pyMaxBySnd]
    constructor
    · rw [hprim]
      constructor
      · intro hx
        simp at hx
      · intro hallu
        exact absurd (List.countP_eq_zero.mpr (fun f hf => by simp [hallu f hf])) hcount0
    · intro lang hl
      rw [hprim] at hl
      set m := xs.foldl (fun a y => if y.2 > a.2 then y else a) x with hm
      have hlang : lang = m.1 := (Option.some.injEq _ _ ▸ hl).symm
      rcases pyMax_foldl_spec xs x m hm.symm with
        ⟨heq, hall⟩ | ⟨pre, post, heq2, hlt, hpre, hpost⟩
      · refine ⟨m.2, [], xs, ?_, ?_, ?_⟩
        · rw [hxs, hlang]
          simp [heq]
        · simp
        · intro p hp
          rw [heq]
          exact hall p hp
      · refine ⟨m.2, x :: pre, post, ?_, ?_, ?_⟩
        · rw [hxs, hlang, heq2]
          simp
        · intro p hp
          rcases List.mem_cons.mp hp with rfl | hp2
          · exact hlt
          · exact hpre p hp2
        · exact hpost

theorem primary_language_spec_witness :
    (get_repo_language_stats c8Files).primary_language = some "Python" ∧
    (∃ c pre post, (languageTallies c8Files).1 = pre ++ ("Python", c) :: post ∧
      (∀ p ∈ pre, p.2 < c) ∧ (∀ p ∈ post, p.2 ≤ c)) := by
  have h := (primary_language_spec c8Files).2 "Python" (by decide)
  exact ⟨by decide, h⟩

/-! ## Execution flow invariants (C9) -/

theorem flowStageEntry_ids (ae : List String) (fl : ExecutionFlow) :
    (flowStageEntry ae fl).stages.map (fun s => s.id) =
      fl.stages.map (fun s => s.id) ++ (if ae ≠ [] then ["entry"] else []) := by
  unfold flowStageEntry ExecutionFlow.add_stage
  split_ifs <;> simp

theorem flowStageEntry_conns (ae : List String) (fl : ExecutionFlow) :
    (flowStageEntry ae fl).connections = fl.connections := by
  unfold flowStageEntry ExecutionFlow.add_stage
  split_ifs <;> rfl

theorem flowStageFrontend_ids (ae fc fw : List String) (fl : ExecutionFlow) :
    (flowStageFrontend ae fc fw fl).stages.map (fun s => s.id) =
      fl.stages.map (fun s => s.id) ++ (if fc ≠ [] then ["frontend"] else []) := by
  unfold flowStageFrontend ExecutionFlow.add_stage ExecutionFlow.add_connection
  split_ifs <;> simp

theorem flowStageFrontend_conns (ae fc fw : List String) (fl : ExecutionFlow) :
    (flowStageFrontend ae fc fw fl).connections = fl.connections ++
      (if fc ≠ [] then
        (if ae ≠ [] &&
            fw.any (fun f => ["React", "Vue", "Angular", "Next.js", "Svelte"].contains f) then
          [⟨"entry", "frontend", "Renders UI"⟩] else [])
       else []) := by
  unfold flowStageFrontend ExecutionFlow.add_stage ExecutionFlow.add_connection
  split_ifs <;> simp

theorem flowStageBackend_ids (ae fc bc : List String) (fl : ExecutionFlow) :
    (flowStageBackend ae fc bc fl).stages.map (fun s => s.id) =
      fl.stages.map (fun s => s.id) ++ (if bc ≠ [] then ["backend"] else []) := by
  unfold flowStageBackend ExecutionFlow.add_stage ExecutionFlow.add_connection
  split_ifs <;> simp

theorem flowStageBackend_conns (ae fc bc : List String) (fl : ExecutionFlow) :
    (flowStageBackend ae fc bc fl).connections = fl.connections ++
      (if bc ≠ [] then
        (if fc ≠ [] then [⟨"frontend", "backend", "API calls"⟩]
         else if ae ≠ [] then [⟨"entry", "backend", "Processes requests"⟩]
         else [])
       else []) := by
  unfold flowStageBackend ExecutionFlow.add_stage ExecutionFlow.add_connection
  split_ifs <;> simp

theorem flowStageMiddleware_ids (mc bc : List String) (fl : ExecutionFlow) :
    (flowStageMiddleware mc bc fl).stages.map (fun s => s.id) =
      fl.stages.map (fun s => s.id) ++
        (if mc ≠ [] && mc.length ≥ 2 then ["middleware"] else []) := by
  unfold flowStageMiddleware ExecutionFlow.add_stage ExecutionFlow.add_connection
  split_ifs <;> simp

theorem flowStageMiddleware_conns (mc bc : List String) (fl : ExecutionFlow) :
    (flowStageMiddleware mc bc fl).connections = fl.connections ++
      (if mc ≠ [] && mc.length ≥ 2 then
        (if bc ≠ [] then [⟨"backend", "middleware", "Uses utilities"⟩] else [])
       else []) := by
  unfold flowStageMiddleware ExecutionFlow.add_stage ExecutionFlow.add_connection
  split_ifs <;> simp

theorem flowStageDatabase_ids (ae bc dc : List String) (fl : ExecutionFlow) :
    (flowStageDatabase ae bc dc fl).stages.map (fun s => s.id) =
      fl.stages.map (fun s => s.id) ++ (if dc ≠ [] then ["database"] else []) := by
  unfold flowStageDatabase ExecutionFlow.add_stage ExecutionFlow.add_connection
  split_ifs <;> simp

theorem flowStageDatabase_conns (ae bc dc : List String) (fl : ExecutionFlow) :
    (flowStageDatabase ae bc dc fl).connections = fl.connections ++
      (if dc ≠ [] then
        (if bc ≠ [] then [⟨"backend", "database", "Data operations"⟩]
         else if ae ≠ [] then [⟨"entry", "database", "Data operations"⟩]
         else [])
       else []) := by
  unfold flowStageDatabase ExecutionFlow.add_stage ExecutionFlow.add_connection
  split_ifs <;> simp

theorem flowStageExternal_ids (es bc : List String) (fl : ExecutionFlow) :
    (flowStageExternal es bc fl).stages.map (fun s => s.id) =
      fl.stages.map (fun s => s.id) ++ (if es ≠ [] then ["external"] else []) := by
  unfold flowStageExternal ExecutionFlow.add_stage ExecutionFlow.add_connection
  split_ifs <;> simp

theorem flowStageExternal_conns (es bc : List String) (fl : ExecutionFlow) :
    (flowStageExternal es bc fl).connections = fl.connections ++
      (if es ≠ [] then
        (if bc ≠ [] then [⟨"backend", "external", "External calls"⟩] else [])
       else []) := by
  unfold flowStageExternal ExecutionFlow.add_stage ExecutionFlow.add_connection
  split_ifs <;> simp

theorem opt_append_sublist_cons (c : Prop) [Decidable c] (s : String) (t M : List String)
    (h : List.Sublist t M) : List.Sublist ((if c then [s] else []) ++ t) (s :: M) := by
  by_cases hc : c
  · simp only [if_pos hc, List.singleton_append]
    exact h.cons₂ s
  · simp only [if_neg hc, List.nil_append]
    exact h.cons s

/-- The invariants of the six-block chain, abstracted over the component
lists; `build_execution_flow` is definitionally this chain at its
computed components. -/
theorem flow_blocks_spec (ae fc bc mc dc es fw : List String) :
    ((flowStageExternal es bc (flowStageDatabase ae bc dc (flowStageMiddleware mc bc
      (flowStageBackend ae fc bc (flowStageFrontend ae fc fw
        (flowStageEntry ae ExecutionFlow.init)))))).stages.map (fun s => s.id)).Sublist
      ["entry", "frontend", "backend", "middleware", "database", "external"] ∧
    ((flowStageExternal es bc (flowStageDatabase ae bc dc (flowStageMiddleware mc bc
      (flowStageBackend ae fc bc (flowStageFrontend ae fc fw
        (flowStageEntry ae ExecutionFlow.init)))))).stages.map (fun s => s.id)).Nodup ∧
    ∀ c ∈ (flowStageExternal es bc (flowStageDatabase ae bc dc (flowStageMiddleware mc bc
      (flowStageBackend ae fc bc (flowStageFrontend ae fc fw
        (flowStageEntry ae ExecutionFlow.init)))))).connections,
      c.fromStage ∈ (flowStageExternal es bc (flowStageDatabase ae bc dc
        (flowStageMiddleware mc bc (flowStageBackend ae fc bc (flowStageFrontend ae fc fw
          (flowStageEntry ae ExecutionFlow.init)))))).stages.map (fun s => s.id) ∧
      c.toStage ∈ (flowStageExternal es bc (flowStageDatabase ae bc dc
        (flowStageMiddleware mc bc (flowStageBackend ae fc bc (flowStageFrontend ae fc fw
          (flowStageEntry ae ExecutionFlow.init)))))).stages.map (fun s => s.id) := by
  have hids : (flowStageExternal es bc (flowStageDatabase ae bc dc (flowStageMiddleware mc bc
      (flowStageBackend ae fc bc (flowStageFrontend ae fc fw
        (flowStageEntry ae ExecutionFlow.init)))))).stages.map (fun s => s.id) =
      (if ae ≠ [] then ["entry"] else []) ++ ((if fc ≠ [] then ["frontend"] else []) ++
        ((if bc ≠ [] then ["backend"] else []) ++
          ((if mc ≠ [] && mc.length ≥ 2 then ["middleware"] else []) ++
            ((if dc ≠ [] then ["database"] else []) ++
              (if es ≠ [] then ["external"] else []))))) := by
    rw [flowStageExternal_ids, flowStageDatabase_ids, flowStageMiddleware_ids,
      flowStageBackend_ids, flowStageFrontend_ids, flowStageEntry_ids]
    simp [ExecutionFlow.init, List.append_assoc]
  have hconns : (flowStageExternal es bc (flowStageDatabase ae bc dc (flowStageMiddleware mc bc
      (flowStageBackend ae fc bc (flowStageFrontend ae fc fw
        (flowStageEntry ae ExecutionFlow.init)))))).connections =
      (if fc ≠ [] then
        (if ae ≠ [] &&
            fw.any (fun f => ["React", "Vue", "Angular", "Next.js", "Svelte"].contains f) then
          [⟨"entry", "frontend", "Renders UI"⟩] else [])
       else []) ++
      ((if bc ≠ [] then
        (if fc ≠ [] then [⟨"frontend", "backend", "API calls"⟩]
         else if ae ≠ [] then [⟨"entry", "backend", "Processes requests"⟩]
         else [])
       else []) ++
      ((if mc ≠ [] && mc.length ≥ 2 then
        (if bc ≠ [] then [⟨"backend", "middleware", "Uses utilities"⟩] else [])
       else []) ++
      ((if dc ≠ [] then
        (if bc ≠ [] then [⟨"backend", "database", "Data operations"⟩]
         else if ae ≠ [] then [⟨"entry", "database", "Data operations"⟩]
         else [])
       else []) ++
      (if es ≠ [] then
        (if bc ≠ [] then [⟨"backend", "external", "External calls"⟩] else [])
       else [])))) := by
    rw [flowStageExternal_conns, flowStageDatabase_conns, flowStageMiddleware_conns,
      flowStageBackend_conns, flowStageFrontend_conns, flowStageEntry_conns]
    simp [ExecutionFlow.init, List.append_assoc]
  have hsub : ((flowStageExternal es bc (flowStageDatabase ae bc dc (flowStageMiddleware mc bc
      (flowStageBackend ae fc bc (flowStageFrontend ae fc fw
        (flowStageEntry ae ExecutionFlow.init)))))).stages.map (fun s => s.id)).Sublist
      ["entry", "frontend", "backend", "middleware", "database", "external"] := by
    rw [hids]
    refine opt_append_sublist_cons _ _ _ _ (opt_append_sublist_cons _ _ _ _
      (opt_append_sublist_cons _ _ _ _ (opt_append_sublist_cons _ _ _ _
        (opt_append_sublist_cons _ _ _ _ ?_))))
    by_cases hc : es ≠ [] <;> simp [hc]
  refine ⟨hsub, hsub.nodup (by decide), ?_⟩
  intro c hc
  rw [hconns] at hc
  rw [hids]
  simp only [List.mem_append] at hc
  rcases hc with hc | hc | hc | hc | hc
  · by_cases h1 : fc ≠ []
    · rw [if_pos h1] at hc
      by_cases h2 : (ae ≠ [] &&
          fw.any (fun f => ["React", "Vue", "Angular", "Next.js", "Svelte"].contains f)) = true
      · rw [if_pos h2] at hc
        have hae : ae ≠ [] := by
          have := (Bool.and_eq_true _ _).mp h2
          simpa using this.1
        rcases List.mem_singleton.mp hc with rfl
        constructor <;> simp [hae, h1]
      · rw [if_neg h2] at hc
        simp at hc
    · rw [if_neg h1] at hc
      simp at hc
  · by_cases h1 : bc ≠ []
    · rw [if_pos h1] at hc
      by_cases h2 : fc ≠ []
      · rw [if_pos h2] at hc
        rcases List.mem_singleton.mp hc with rfl
        constructor <;> simp [h1, h2]
      · rw [if_neg h2] at hc
        by_cases h3 : ae ≠ []
        · rw [if_pos h3] at hc
          rcases List.mem_singleton.mp hc with rfl
          constructor <;> simp [h1, h3]
        · rw [if_neg h3] at hc
          simp at hc
    · rw [if_neg h1] at hc
      simp at hc
  · by_cases h1 : (mc ≠ [] && mc.length ≥ 2) = true
    · rw [if_pos h1] at hc
      by_cases h2 : bc ≠ []
      · rw [if_pos h2] at hc
        rcases List.mem_singleton.mp hc with rfl
        have hmc : ¬mc = [] ∧ 2 ≤ mc.length := by
          have := (Bool.and_eq_true _ _).mp h1
          exact ⟨by simpa using this.1, by simpa using this.2⟩
        constructor <;> simp [h1, h2, hmc]
      · rw [if_neg h2] at hc
        simp at hc
    · rw [if_neg h1] at hc
      simp at hc
  · by_cases h1 : dc ≠ []
    · rw [if_pos h1] at hc
      by_cases h2 : bc ≠ []
      · rw [if_pos h2] at hc
        rcases List.mem_singleton.mp hc with rfl
        constructor <;> simp [h1, h2]
      · rw [if_neg h2] at hc
        by_cases h3 : ae ≠ []
        · rw [if_pos h3] at hc
          rcases List.mem_singleton.mp hc with rfl
          constructor <;> simp [h1, h3]
        · rw [if_neg h3] at hc
          simp at hc
    · rw [if_neg h1] at hc
      simp at hc
  · by_cases h1 : es ≠ []
    · rw [if_pos h1] at hc
      by_cases h2 : bc ≠ []
      · rw [if_pos h2] at hc
        rcases List.mem_singleton.mp hc with rfl
        constructor <;> simp [h1, h2]
      · rw [if_neg h2] at hc
        simp at hc
    · rw [if_neg h1] at hc
      simp at hc

/-- C9: every flow built by `build_execution_flow` has pairwise-distinct
stage ids drawn, in order, from the fixed tokens entry, frontend,
backend, middleware, database, external, and every connection joins two
stage ids present in the stage list. -/
theorem execution_flow_stage_invariants (entrypoints : EntrypointsResult)
    (folder_summaries : List FolderSummary)
    (frameworks databases infrastructure : List String) :
    ((build_execution_flow entrypoints folder_summaries frameworks databases
        infrastructure).stages.map (fun s => s.id)).Sublist
      ["entry", "frontend", "backend", "middleware", "database", "external"] ∧
    ((build_execution_flow entrypoints folder_summaries frameworks databases
        infrastructure).stages.map (fun s => s.id)).Nodup ∧
    ∀ c ∈ (build_execution_flow entrypoints folder_summaries frameworks databases
        infrastructure).connections,
      c.fromStage ∈ (build_execution_flow entrypoints folder_summaries frameworks
        databases infrastructure).stages.map (fun s => s.id) ∧
      c.toStage ∈ (build_execution_flow entrypoints folder_summaries frameworks
        databases infrastructure).stages.map (fun s => s.id) := by
  exact flow_blocks_spec
    (entrypoints.application_files.map (fun e : AppFileRec => e.path) ++
      entrypoints.framework_entrypoints.map (fun e : FrameworkRec => e.path))
    (identify_frontend_components folder_summaries)
    (identify_backend_components folder_summaries frameworks)
    (identify_middleware_components folder_summaries)
    (identify_database_components folder_summaries databases)
    ((if infrastructure.any (fun infra => ["Docker", "Kubernetes"].contains infra) then
        ["Container orchestration"] else []) ++
      (if databases.contains "Redis" then ["Redis (caching/queue)"] else []) ++
      (if databases.contains "Elasticsearch" then ["Elasticsearch (search)"] else []))
    frameworks

theorem execution_flow_stage_invariants_witness :
    (⟨"backend", "database", "Data operations"⟩ : FlowConnection) ∈
      (build_execution_flow ⟨[⟨"main.py", "Python", "main.py"⟩], [], []⟩ c9Summaries
        ["Flask"] ["Redis"] ["Docker"]).connections ∧
    "backend" ∈ (build_execution_flow ⟨[⟨"main.py", "Python", "main.py"⟩], [], []⟩
      c9Summaries ["Flask"] ["Redis"] ["Docker"]).stages.map (fun s => s.id) ∧
    "database" ∈ (build_execution_flow ⟨[⟨"main.py", "Python", "main.py"⟩], [], []⟩
      c9Summaries ["Flask"] ["Redis"] ["Docker"]).stages.map (fun s => s.id) := by
  have h := (execution_flow_stage_invariants ⟨[⟨"main.py", "Python", "main.py"⟩], [], []⟩
    c9Summaries ["Flask"] ["Redis"] ["Docker"]).2.2
    ⟨"backend", "database", "Data operations"⟩ (by decide)
  exact ⟨by decide, h.1, h.2⟩

/-! ## Folder classification permutation invariance (C6) -/

theorem charListLe_total : ∀ (a b : List Char),
    charListLe a b = true ∨ charListLe b a = true := by
  intro a
  induction a with
  | nil => intro b; left; rfl
  | cons x xs ih =>
    intro b
    cases b with
    | nil => right; rfl
    | cons y ys =>
      by_cases hxy : x = y
      · subst hxy
        rcases ih ys with h | h
        · left; simp [charListLe, h]
        · right; simp [charListLe, h]
      · simp only [charListLe, if_neg hxy, if_neg (Ne.symm hxy)]
        by_cases hlt : x.toNat < y.toNat
        · left; simpa using hlt
        · right
          have hne : x.toNat ≠ y.toNat := fun hh => hxy (Char.ext (UInt32.toNat.inj hh))
          simp only [decide_eq_true_eq]
          omega

theorem charListLe_trans : ∀ (a b c : List Char), charListLe a b = true →
    charListLe b c = true → charListLe a c = true := by
  intro a
  induction a with
  | nil => intro b c _ _; rfl
  | cons x xs ih =>
    intro b c hab hbc
    cases b with
    | nil => simp [charListLe] at hab
    | cons y ys =>
      cases c with
      | nil => simp [charListLe] at hbc
      | cons z zs =>
        by_cases hxy : x = y
        · subst hxy
          by_cases hyz : x = z
          · subst hyz
            simp only [charListLe, if_pos rfl] at hab hbc ⊢
            exact ih ys zs hab hbc
          · simp only [charListLe, if_pos rfl, if_neg hyz] at hbc ⊢
            exact hbc
        · by_cases hyz : y = z
          · subst hyz
            simp only [charListLe, if_neg hxy] at hab ⊢
            exact hab
          · by_cases hxz : x = z
            · subst hxz
              simp only [charListLe, if_neg hxy, if_neg (Ne.symm hxy),
                decide_eq_true_eq] at hab hbc
              omega
            · simp only [charListLe, if_neg hxy, if_neg hyz, if_neg hxz,
                decide_eq_true_eq] at hab hbc ⊢
              omega

theorem charListLe_antisymm : ∀ (a b : List Char), charListLe a b = true →
    charListLe b a = true → a = b := by
  intro a
  induction a with
  | nil =>
    intro b h1 h2
    cases b with
    | nil => rfl
    | cons y ys => simp [charListLe] at h2
  | cons x xs ih =>
    intro b h1 h2
    cases b with
    | nil => simp [charListLe] at h1
    | cons y ys =>
      by_cases hxy : x = y
      · subst hxy
        simp only [charListLe, if_pos rfl] at h1 h2
        rw [ih ys h1 h2]
      · simp only [charListLe, if_neg hxy, if_neg (Ne.symm hxy),
          decide_eq_true_eq] at h1 h2
        omega

theorem pyStrLe_total (s t : String) : pyStrLe s t ∨ pyStrLe t s :=
  charListLe_total s.toList t.toList

theorem pyStrLe_trans (s t u : String) : pyStrLe s t → pyStrLe t u → pyStrLe s u :=
  charListLe_trans s.toList t.toList u.toList

theorem pyStrLe_antisymm (s t : String) : pyStrLe s t → pyStrLe t s → s = t := by
  intro h1 h2
  have h := charListLe_antisymm s.toList t.toList h1 h2
  cases s
  cases t
  simp only [String.toList] at h
  exact congrArg String.mk h

theorem pySorted_perm_eq (A B : List String) (h : List.Perm A B) :
    pySorted A = pySorted B := by
  haveI : IsTotal String pyStrLe := ⟨pyStrLe_total⟩
  haveI : IsTrans String pyStrLe := ⟨pyStrLe_trans⟩
  haveI : IsAntisymm String pyStrLe := ⟨pyStrLe_antisymm⟩
  exact List.eq_of_perm_of_sorted
    ((List.perm_insertionSort _ A).trans (h.trans (List.perm_insertionSort _ B).symm))
    (List.sorted_insertionSort _ A) (List.sorted_insertionSort _ B)

theorem firstOccs_perm {α : Type} [DecidableEq α] (A B : List α) (h : List.Perm A B) :
    List.Perm (firstOccs A) (firstOccs B) :=
  (List.perm_ext_iff_of_nodup (firstOccs_nodup A) (firstOccs_nodup B)).mpr
    (fun a => by rw [mem_firstOccs, mem_firstOccs, h.mem_iff])

theorem folderFilesOf_perm (folder : String) (l1 l2 : List FileRec)
    (h : List.Perm l1 l2) :
    List.Perm (folderFilesOf folder l1) (folderFilesOf folder l2) := h.filter _

theorem classify_by_content_perm (folder : String) (l1 l2 : List FileRec)
    (h : List.Perm l1 l2) :
    classify_by_content folder l1 = classify_by_content folder l2 := by
  have hff := folderFilesOf_perm folder l1 l2 h
  have hisEmpty : (folderFilesOf folder l1).isEmpty = (folderFilesOf folder l2).isEmpty := by
    apply Bool.eq_iff_iff.mpr
    rw [List.isEmpty_iff, List.isEmpty_iff, ← List.length_eq_zero, ← List.length_eq_zero,
      hff.length_eq]
  have hfc : frontendCount folder l1 = frontendCount folder l2 := hff.countP_eq _
  have hbc : backendCount folder l1 = backendCount folder l2 := hff.countP_eq _
  have hcc : configCount folder l1 = configCount folder l2 := hff.countP_eq _
  have hsc : scriptCount folder l1 = scriptCount folder l2 := hff.countP_eq _
  have hlen : (folderFilesOf folder l1).length = (folderFilesOf folder l2).length :=
    hff.length_eq
  have hpf : hasFrontendPatterns folder l1 = hasFrontendPatterns folder l2 := by
    apply Bool.eq_iff_iff.mpr
    unfold hasFrontendPatterns
    rw [List.any_eq_true, List.any_eq_true]
    constructor
    · rintro ⟨f, hf, hp⟩; exact ⟨f, hff.mem_iff.mp hf, hp⟩
    · rintro ⟨f, hf, hp⟩; exact ⟨f, hff.mem_iff.mpr hf, hp⟩
  have hpb : hasBackendPatterns folder l1 = hasBackendPatterns folder l2 := by
    apply Bool.eq_iff_iff.mpr
    unfold hasBackendPatterns
    rw [List.any_eq_true, List.any_eq_true]
    constructor
    · rintro ⟨f, hf, hp⟩; exact ⟨f, hff.mem_iff.mp hf, hp⟩
    · rintro ⟨f, hf, hp⟩; exact ⟨f, hff.mem_iff.mpr hf, hp⟩
  unfold classify_by_content
  dsimp only
  rw [hisEmpty, hfc, hbc, hcc, hsc, hlen, hpf, hpb]

/-- C6: `classify_folders` is permutation-invariant: shuffling the input
file list leaves the folder classification mapping identical, since each
folder is classified from order-insensitive counts and membership tests
and the folders are emitted in sorted order. -/
theorem classify_folders_perm_invariant (l1 l2 : List FileRec) (h : List.Perm l1 l2) :
    classify_folders l1 = classify_folders l2 := by
  unfold classify_folders
  dsimp only
  have hfolders : pySorted (firstOccs
      ((l1.map (fun f => get_folder_from_path f.path)).filter (fun s => s ≠ ""))) =
      pySorted (firstOccs
      ((l2.map (fun f => get_folder_from_path f.path)).filter (fun s => s ≠ ""))) :=
    pySorted_perm_eq _ _ (firstOccs_perm _ _ ((h.map _).filter _))
  rw [hfolders]
  apply List.map_congr_left
  intro folder _
  have h1 := classify_by_content_perm folder l1 l2 h
  have h2 : (l1.filter (fun f => pyStartsWith f.path (folder ++ "/"))).length =
      (l2.filter (fun f => pyStartsWith f.path (folder ++ "/"))).length :=
    (h.filter _).length_eq
  rw [h1, h2]

theorem classify_folders_perm_invariant_witness :
    List.Perm [(⟨"pkg/a.json", ""⟩ : FileRec), ⟨"src/b.py", "x = 1"⟩]
      [⟨"src/b.py", "x = 1"⟩, ⟨"pkg/a.json", ""⟩] ∧
    classify_folders [(⟨"pkg/a.json", ""⟩ : FileRec), ⟨"src/b.py", "x = 1"⟩] =
      classify_folders [⟨"src/b.py", "x = 1"⟩, ⟨"pkg/a.json", ""⟩] :=
  ⟨by decide, classify_folders_perm_invariant _ _ (by decide)⟩
